import Mathlib

/-!
# omen-light: command line to HID report encoder

A shallow embedding of `src/omen_light.cc`.

* Bytes (`uint8_t`) are natural numbers; every narrowing store is written with an
  explicit `% 256`.  The `enum class ... : uint8_t` fields of `Report` are kept as
  their underlying byte, with the enumerators as named constants, because the
  zero-initialised report holds the byte 0 in fields for which 0 is not an enumerator.
* `argv` is a list of strings and `argc` its length.
* The hidapi library is the environment: an oracle gives, for the n-th call of
  `SendReport`, which of the four fallible hidapi calls fail.  `Run` threads a log of
  the reports handed to `SendReport` and of the hidapi calls made.
* Indexing `colors` outside `0..N_LEDS-1` is undefined behaviour in the source; the
  embedding returns `none` there.
-/

namespace OmenLight

/-! ## Constants (lines 8-12) -/

def VENDOR_ID : Nat := 0x103c
def PRODUCT_ID : Nat := 0x84fd
def VERSION : Nat := 0x12
def MAX_BRIGHTNESS : Nat := 100
def N_LEDS : Nat := 8

/-! ## The report (lines 14-58) -/

/-- Enumerators of `Report::Mode`: `STATIC = 1, OFF = 5, BREATHING, CYCLE, BLINKING`. -/
def Mode.STATIC : Nat := 1
def Mode.OFF : Nat := 5
def Mode.BREATHING : Nat := 6
def Mode.CYCLE : Nat := 7
def Mode.BLINKING : Nat := 8

/-- Enumerators of `Report::Type`. -/
def Type.OFF : Nat := 0
def Type.STATIC : Nat := 2
def Type.CHANGING : Nat := 10

/-- Enumerators of `Report::Power`. -/
def Power.ON : Nat := 1
def Power.SUSPEND : Nat := 2

/-- Enumerators of `Report::Theme`: `OFF = 0, CUSTOM = 0, GALAXY, VOLCANO, JUNGO, OCEAN`. -/
def Theme.OFF : Nat := 0
def Theme.CUSTOM : Nat := 0
def Theme.GALAXY : Nat := 1
def Theme.VOLCANO : Nat := 2
def Theme.JUNGO : Nat := 3
def Theme.OCEAN : Nat := 4

/-- Enumerators of `Report::Speed`: `OFF = 0, SLOW, MEDIUM, FAST`. -/
def Speed.OFF : Nat := 0
def Speed.SLOW : Nat := 1
def Speed.MEDIUM : Nat := 2
def Speed.FAST : Nat := 3

/-- The packed struct `Report::Color`: three bytes. -/
structure Color where
  r : Nat
  g : Nat
  b : Nat
  deriving DecidableEq

/-- The packed struct `Report`, fields in declared order. -/
structure Report where
  report_id : Nat
  reserved : Nat
  version : Nat
  mode : Nat
  custom_color_count : Nat
  custom_color_id : Nat
  reserved2 : List Nat
  colors : List Color
  reserved3 : List Nat
  brightness : Nat
  type : Nat
  reserved4 : List Nat
  led : Nat
  power : Nat
  theme : Nat
  speed : Nat
  deriving DecidableEq

/-- The value of `Report report{}`: every byte zero, arrays at their declared sizes. -/
def Report.zero : Report where
  report_id := 0
  reserved := 0
  version := 0
  mode := 0
  custom_color_count := 0
  custom_color_id := 0
  reserved2 := List.replicate 2 0
  colors := List.replicate N_LEDS ⟨0, 0, 0⟩
  reserved3 := List.replicate (40 - N_LEDS * 3) 0
  brightness := 0
  type := 0
  reserved4 := List.replicate 4 0
  led := 0
  power := 0
  theme := 0
  speed := 0

/-- Bytes of one colour, in declared order. -/
def Color.bytes (c : Color) : List Nat := [c.r, c.g, c.b]

/-- The object representation of a packed `Report`, as read through
`reinterpret_cast<const uint8_t*>(&report)` for `sizeof(report)` bytes (lines 110-111). -/
def Report.bytes (p : Report) : List Nat :=
  [p.report_id, p.reserved, p.version, p.mode, p.custom_color_count, p.custom_color_id]
    ++ p.reserved2
    ++ (p.colors.map Color.bytes).flatten
    ++ p.reserved3
    ++ [p.brightness, p.type]
    ++ p.reserved4
    ++ [p.led, p.power, p.theme, p.speed]

/-! ## The hidapi environment and `SendReport` (lines 98-124) -/

/-- The hidapi calls `SendReport` can make. -/
inductive HidCall where
  | hid_init
  | hid_open (vendor_id product_id : Nat)
  | hid_write (data : List Nat)
  | hid_close
  | hid_exit
  deriving DecidableEq

/-- What the library does during one call of `SendReport`: which of the fallible calls
fail (`hid_init() != 0`, `hid_open(..) == nullptr`, `hid_write(..) < 0`,
`hid_exit() != 0`). -/
structure HidOutcome where
  init_fails : Bool
  open_fails : Bool
  write_fails : Bool
  exit_fails : Bool
  deriving DecidableEq

/-- The library never fails. -/
def HidOutcome.good : HidOutcome := ⟨false, false, false, false⟩

/-- The function `SendReport`: the returned flag and the hidapi calls made, in order.
On the path where `hid_write` fails the source returns before `hid_close`. -/
def SendReport (o : HidOutcome) (report : Report) : Bool × List HidCall :=
  if o.init_fails then
    (false, [.hid_init])
  else if o.open_fails then
    (false, [.hid_init, .hid_open VENDOR_ID PRODUCT_ID])
  else if o.write_fails then
    (false, [.hid_init, .hid_open VENDOR_ID PRODUCT_ID, .hid_write report.bytes])
  else if o.exit_fails then
    (false, [.hid_init, .hid_open VENDOR_ID PRODUCT_ID, .hid_write report.bytes,
             .hid_close, .hid_exit])
  else
    (true, [.hid_init, .hid_open VENDOR_ID PRODUCT_ID, .hid_write report.bytes,
            .hid_close, .hid_exit])

/-- The log `Run` accumulates: the reports handed to `SendReport`, oldest first, and
the hidapi calls made, oldest first. -/
structure Dev where
  sent : List Report
  hid : List HidCall
  deriving DecidableEq

/-- Nothing sent yet. -/
def Dev.empty : Dev := ⟨[], []⟩

/-- One call `SendReport(report)` made by `Run`: the oracle is asked for the outcome of
this call (numbered by how many calls came before it) and the log is extended. -/
def callSendReport (env : Nat → HidOutcome) (report : Report) (dev : Dev) : Bool × Dev :=
  let res := SendReport (env dev.sent.length) report
  (res.1, ⟨dev.sent ++ [report], dev.hid ++ res.2⟩)

/-! ## `std::stoi` and `std::atoi` -/

def INT_MIN : Int := -2147483648
def INT_MAX : Int := 2147483647
def LONG_MIN : Int := -9223372036854775808
def LONG_MAX : Int := 9223372036854775807

/-- The C-locale `isspace`: space, `\t`, `\n`, `\v`, `\f`, `\r`. -/
def isspace (c : Char) : Bool :=
  c.toNat = 32 || (9 ≤ c.toNat && c.toNat ≤ 13)

/-- The decimal `isdigit`. -/
def isdigit (c : Char) : Bool :=
  48 ≤ c.toNat && c.toNat ≤ 57

/-- Value of the leading run of decimal digits, given the value read so far; `none`
when the run is empty and nothing was read before. -/
def readDigits : List Char → Option Nat → Option Nat
  | [], acc => acc
  | c :: cs, acc =>
    if isdigit c then readDigits cs (some (acc.getD 0 * 10 + (c.toNat - 48)))
    else acc

/-- The subject sequence of `strtol(s, &end, 10)` as an unbounded integer: leading
white space is skipped, then an optional sign, then decimal digits; whatever follows
the digits is ignored.  `none` when there is no digit (no conversion). -/
def strtolValue (s : List Char) : Option Int :=
  match s.dropWhile isspace with
  | [] => none
  | c :: cs =>
    if c.toNat = 45 then (readDigits cs none).map (fun n => -(n : Int))
    else if c.toNat = 43 then (readDigits cs none).map (fun n => (n : Int))
    else (readDigits (c :: cs) none).map (fun n => (n : Int))

/-- The call `std::stoi(arg)`: `none` when it throws, either `std::invalid_argument` (no
conversion) or `std::out_of_range` (the value does not fit a 32-bit `int`). -/
def stoi (arg : String) : Option Int :=
  match strtolValue arg.data with
  | none => none
  | some v => if v < INT_MIN ∨ INT_MAX < v then none else some v

/-- The call `std::atoi(s)`, that is `(int) strtol(s, nullptr, 10)`: 0 when there is no
conversion.  For a value that does not fit, the C standard leaves the result
undefined; this follows the common library, where `strtol` saturates at the bounds of
a 64-bit `long` and the conversion to `int` keeps the low 32 bits. -/
def atoi (s : String) : Int :=
  match strtolValue s.data with
  | none => 0
  | some v =>
    let l := if v < LONG_MIN then LONG_MIN else if LONG_MAX < v then LONG_MAX else v
    (l + 2147483648) % 4294967296 - 2147483648

/-- Conversion of an `int` to `uint8_t`. -/
def toUint8 (v : Int) : Nat := (v % 256).toNat

/-! ## The parsers (lines 126-221)

A parser of the source returns `bool` and writes through a pointer; the embedding
returns the flag together with the new content of the pointee. -/

/-- The function `ParseLed(arg, led)` (lines 126-149).  The value of `std::stoi` is
stored in the `uint8_t` pointee, hence narrowed, before the range check reads it back. -/
def ParseLed (arg : String) (led : Nat) : Bool × Nat :=
  if arg = "front" then (true, 1)
  else if arg = "chase" then (true, 2)
  else
    match stoi arg with
    | some v =>
      let led := toUint8 v
      if led < 1 ∨ led > N_LEDS then (false, led) else (true, led)
    | none => (false, led)

/-- The function `ParsePower(arg, power)` (lines 151-161). -/
def ParsePower (arg : String) (power : Nat) : Bool × Nat :=
  if arg = "on" then (true, Power.ON)
  else if arg = "suspend" then (true, Power.SUSPEND)
  else (false, power)

/-- The function `ParseMode(arg, mode)` (lines 163-179). -/
def ParseMode (arg : String) (mode : Nat) : Bool × Nat :=
  if arg = "off" then (true, Mode.OFF)
  else if arg = "static" then (true, Mode.STATIC)
  else if arg = "breathing" then (true, Mode.BREATHING)
  else if arg = "cycle" then (true, Mode.CYCLE)
  else if arg = "blinking" then (true, Mode.BLINKING)
  else (false, mode)

/-- The function `ParseSpeed(arg, speed)` (lines 191-203). -/
def ParseSpeed (arg : String) (speed : Nat) : Bool × Nat :=
  if arg = "slow" then (true, Speed.SLOW)
  else if arg = "medium" then (true, Speed.MEDIUM)
  else if arg = "fast" then (true, Speed.FAST)
  else (false, speed)

/-- The function `ParseTheme(arg, theme)` (lines 205-221). -/
def ParseTheme (arg : String) (theme : Nat) : Bool × Nat :=
  if arg = "custom" then (true, Theme.CUSTOM)
  else if arg = "galaxy" then (true, Theme.GALAXY)
  else if arg = "volcano" then (true, Theme.VOLCANO)
  else if arg = "jungo" then (true, Theme.JUNGO)
  else if arg = "ocean" then (true, Theme.OCEAN)
  else (false, theme)

/-- The token `argv[i]`; `Run` reads only below `argc`. -/
def arg (argv : List String) (i : Nat) : String := argv.getD i ""

/-- The function `ParseColor(argv, report)` (lines 181-189): the three tokens at `argv[0..2]` are
stored, narrowed to bytes, in `colors[led - 1]`.  `none` when `led - 1` is not an
index of `colors` (undefined behaviour in the source). -/
def ParseColor (argv : List String) (report : Report) : Option Report :=
  if 1 ≤ report.led ∧ report.led ≤ N_LEDS then
    let c : Color :=
      ⟨toUint8 (atoi (arg argv 0)), toUint8 (atoi (arg argv 1)), toUint8 (atoi (arg argv 2))⟩
    some { report with colors := report.colors.set (report.led - 1) c }
  else none

/-! ## `Run` (lines 223-277) -/

/-- The loop of lines 261-265, `for (int i = 0; i < report.custom_color_count; ++i)`,
entered at counter `i` with `n = custom_color_count - i` iterations left (the body
does not write `custom_color_count`). -/
def customLoop (env : Nat → HidOutcome) (argv : List String) :
    Nat → Nat → Report → Dev → Option (Bool × Dev)
  | 0, _, _, dev => some (true, dev)
  | n + 1, i, report, dev =>
    let report := { report with custom_color_id := (i + 1) % 256 }
    match ParseColor (argv.drop (i * 3)) report with
    | none => none
    | some report =>
      match callSendReport env report dev with
      | (false, dev) => some (false, dev)
      | (true, dev) => customLoop env argv n (i + 1) report dev

/-- The function `Run(argc, argv)` with `argc = argv.length`: the returned flag and the log, or
`none` on undefined behaviour. -/
def Run (env : Nat → HidOutcome) (argv : List String) : Option (Bool × Dev) :=
  let dev := Dev.empty
  let report : Report := { Report.zero with version := VERSION }
  if argv.length < 4 then some (false, dev) else
  let led := ParseLed (arg argv 1) report.led
  let report := { report with led := led.2 }
  if led.1 = false then some (false, dev) else
  let power := ParsePower (arg argv 2) report.power
  let report := { report with power := power.2 }
  if power.1 = false then some (false, dev) else
  let mode := ParseMode (arg argv 3) report.mode
  let report := { report with mode := mode.2 }
  if mode.1 = false then some (false, dev) else
  let argv := argv.drop 4
  if report.mode = Mode.OFF then
    some (callSendReport env report dev)
  else if report.mode = Mode.STATIC then
    if argv.length ≠ 3 then some (false, dev) else
    match ParseColor argv report with
    | none => none
    | some report =>
      let report := { report with custom_color_count := 1 }
      let report := { report with custom_color_id := 1 }
      let report := { report with brightness := MAX_BRIGHTNESS }
      let report := { report with type := Type.STATIC }
      some (callSendReport env report dev)
  else if report.mode = Mode.BREATHING ∨ report.mode = Mode.CYCLE
      ∨ report.mode = Mode.BLINKING then
    if argv.length < 2 then some (false, dev) else
    let speed := ParseSpeed (arg argv 0) report.speed
    let report := { report with speed := speed.2 }
    if speed.1 = false then some (false, dev) else
    let theme := ParseTheme (arg argv 1) report.theme
    let report := { report with theme := theme.2 }
    if theme.1 = false then some (false, dev) else
    let report := { report with brightness := MAX_BRIGHTNESS }
    let report := { report with type := Type.CHANGING }
    if report.theme = Theme.CUSTOM then
      let argv := argv.drop 2
      if argv.length ≠ 3 ∧ argv.length ≠ 6 ∧ argv.length ≠ 9 ∧ argv.length ≠ 12 then
        some (false, dev)
      else
        let report := { report with custom_color_count := (argv.length / 3) % 256 }
        customLoop env argv report.custom_color_count 0 report dev
    else
      let report := { report with custom_color_count := 1 }
      let report := { report with custom_color_id := 1 }
      some (callSendReport env report dev)
  else
    some (true, dev)

/-- The environment in which hidapi never fails. -/
def goodEnv : Nat → HidOutcome := fun _ => HidOutcome.good

/-! ## Proof devices

The definitions below are not source functions.  They describe, without the log, what
`Run` hands to `SendReport`; `Run_eq` relates them to `Run`. -/

/-- The stores of lines 183-188 when `led - 1` is an index of `colors`. -/
def storeColor (argv : List String) (report : Report) : Report :=
  { report with
    colors := report.colors.set (report.led - 1)
      ⟨toUint8 (atoi (arg argv 0)), toUint8 (atoi (arg argv 1)), toUint8 (atoi (arg argv 2))⟩ }

/-- The reports the loop of lines 261-265 hands to `SendReport` when no send fails. -/
def burst (argv : List String) : Nat → Nat → Report → List Report
  | 0, _, _ => []
  | n + 1, i, report =>
    let report := storeColor (argv.drop (i * 3)) { report with custom_color_id := (i + 1) % 256 }
    report :: burst argv n (i + 1) report

/-- Handing reports to `SendReport` in order, stopping after the first failed call. -/
def sendAll (env : Nat → HidOutcome) : List Report → Dev → Bool × Dev
  | [], dev => (true, dev)
  | r :: rs, dev =>
    match callSendReport env r dev with
    | (false, dev) => (false, dev)
    | (true, dev) => sendAll env rs dev

/-- The reports `Run` would hand to `SendReport` if no send failed; `none` when `Run`
rejects the command line. -/
def encode (argv : List String) : Option (List Report) :=
  if argv.length < 4 then none else
  let led := ParseLed (arg argv 1) 0
  let power := ParsePower (arg argv 2) 0
  let mode := ParseMode (arg argv 3) 0
  if led.1 = false ∨ power.1 = false ∨ mode.1 = false then none else
  let base : Report :=
    { Report.zero with version := VERSION, led := led.2, power := power.2, mode := mode.2 }
  let rest := argv.drop 4
  if mode.2 = Mode.OFF then some [base]
  else if mode.2 = Mode.STATIC then
    if rest.length ≠ 3 then none
    else some [{ storeColor rest base with
                 custom_color_count := 1, custom_color_id := 1,
                 brightness := MAX_BRIGHTNESS, type := Type.STATIC }]
  else
    if rest.length < 2 then none else
    let speed := ParseSpeed (arg rest 0) 0
    let theme := ParseTheme (arg rest 1) 0
    if speed.1 = false ∨ theme.1 = false then none else
    let anim : Report :=
      { base with speed := speed.2, theme := theme.2,
                  brightness := MAX_BRIGHTNESS, type := Type.CHANGING }
    if theme.2 = Theme.CUSTOM then
      let cols := rest.drop 2
      if cols.length ≠ 3 ∧ cols.length ≠ 6 ∧ cols.length ≠ 9 ∧ cols.length ≠ 12 then none
      else some (burst cols ((cols.length / 3) % 256) 0
                  { anim with custom_color_count := (cols.length / 3) % 256 })
    else some [{ anim with custom_color_count := 1, custom_color_id := 1 }]

/-- The colour `ParseColor` reads from the tokens `3 * i`, `3 * i + 1`, `3 * i + 2` of
a token list: each token through `atoi`, then narrowed to a byte. -/
def tripleAt (cols : List String) (i : Nat) : Color :=
  ⟨toUint8 (atoi (arg cols (3 * i))), toUint8 (atoi (arg cols (3 * i + 1))),
   toUint8 (atoi (arg cols (3 * i + 2)))⟩

/-- The report of iteration `i` of the loop of lines 261-265, from the report `p` with
which the loop is entered. -/
def burstReport (cols : List String) (p : Report) (i : Nat) : Report :=
  { p with custom_color_id := (i + 1) % 256,
           colors := p.colors.set (p.led - 1) (tripleAt cols i) }

/-- The report with which the loop of lines 261-265 is entered, after the stores of
lines 225-260. -/
def customBase (mode led power speed k : Nat) : Report :=
  { Report.zero with
    version := VERSION, mode := mode, led := led, power := power,
    speed := speed, theme := Theme.CUSTOM, brightness := MAX_BRIGHTNESS,
    type := Type.CHANGING, custom_color_count := k }

/-- The ten valid zone tokens of the usage text, each with its zone index: `front` is
1, `chase` is 2, and the decimal tokens of 1 to 8. -/
def zoneTokens : List (String × Nat) :=
  [("front", 1), ("chase", 2), ("1", 1), ("2", 2), ("3", 3), ("4", 4),
   ("5", 5), ("6", 6), ("7", 7), ("8", 8)]

/-- A call of `SendReport` under the outcome `o` returns `true`. -/
def sendOk (o : HidOutcome) : Bool := (SendReport o Report.zero).1

/-- The report sent for an off command: the zero report with the stores of lines
225-230. -/
def offReport (led power : Nat) : Report :=
  { Report.zero with version := VERSION, led := led, power := power, mode := Mode.OFF }

/-- The report sent for a static command with colour `c`: lines 225-243. -/
def staticReport (led power : Nat) (c : Color) : Report :=
  { Report.zero with
    version := VERSION, led := led, power := power, mode := Mode.STATIC,
    colors := Report.zero.colors.set (led - 1) c,
    custom_color_count := 1, custom_color_id := 1,
    brightness := MAX_BRIGHTNESS, type := Type.STATIC }

/-- The report sent for an animated command with a predefined theme: lines 225-254
and 269-270. -/
def presetReport (mode led power speed theme : Nat) : Report :=
  { Report.zero with
    version := VERSION, led := led, power := power, mode := mode,
    speed := speed, theme := theme,
    brightness := MAX_BRIGHTNESS, type := Type.CHANGING,
    custom_color_count := 1, custom_color_id := 1 }

/-- The speed tokens of the usage text with the byte of each (`Report::Speed`). -/
def speedTokens : List (String × Nat) := [("slow", 1), ("medium", 2), ("fast", 3)]

/-- The theme tokens of the usage text with the byte of each (`Report::Theme`). -/
def themeTokens : List (String × Nat) :=
  [("custom", 0), ("galaxy", 1), ("volcano", 2), ("jungo", 3), ("ocean", 4)]

/-- The colour array holds `c` in slot `slot` and zero in its seven other slots. -/
def onlySlot (colors : List Color) (slot : Nat) (c : Color) : Prop :=
  colors.length = 8 ∧ slot < 8 ∧ colors[slot]? = some c
    ∧ ∀ j, j < 8 → j ≠ slot → colors[j]? = some ⟨0, 0, 0⟩

/-- The array fields of a `Report` have their declared sizes (lines 48-53), which the
C type guarantees. -/
def Report.wellSized (p : Report) : Prop :=
  p.reserved2.length = 2 ∧ p.colors.length = N_LEDS
    ∧ p.reserved3.length = 40 - N_LEDS * 3 ∧ p.reserved4.length = 4

/-- The token does not start with a decimal integer: after leading white space and an
optional sign there is no digit (a non-numeric token). -/
def noLeadingInt (tok : String) : Bool :=
  match tok.data.dropWhile isspace with
  | [] => true
  | c :: cs =>
    if c.toNat = 45 ∨ c.toNat = 43 then
      match cs with
      | [] => true
      | d :: _ => !isdigit d
    else !isdigit c

/-! ## The command of the specification and a decoder (C11)

The definitions below follow the data model of the specification (section 3), not a
source function: the validated command, the tokens that spell it on the command line,
and a decoder that reads a command back from the fixed fields of the reports sent. -/

/-- The power context of the specification. -/
inductive PowerContext where
  | on
  | suspend
  deriving DecidableEq

/-- The animated modes of the specification. -/
inductive AnimatedMode where
  | breathing
  | cycle
  | blinking
  deriving DecidableEq

/-- The speeds a command can select. -/
inductive SpeedChoice where
  | slow
  | medium
  | fast
  deriving DecidableEq

/-- The predefined themes. -/
inductive PresetTheme where
  | galaxy
  | volcano
  | jungo
  | ocean
  deriving DecidableEq

/-- The mode of a command with its mode-specific payload: nothing for off, one colour
for static, speed and a predefined theme, or speed and the colours of a custom theme. -/
inductive Payload where
  | off
  | static (c : Color)
  | preset (m : AnimatedMode) (s : SpeedChoice) (t : PresetTheme)
  | custom (m : AnimatedMode) (s : SpeedChoice) (cs : List Color)
  deriving DecidableEq

/-- The command of the specification: zone index, power context, payload. -/
structure Command where
  zone : Nat
  power : PowerContext
  payload : Payload
  deriving DecidableEq

/-- A colour of bytes. -/
def Color.isBytes (c : Color) : Prop := c.r < 256 ∧ c.g < 256 ∧ c.b < 256

/-- A valid command: zone index 1..8, colours of bytes, 1 to 4 custom colours. -/
def Command.valid (c : Command) : Prop :=
  1 ≤ c.zone ∧ c.zone ≤ 8 ∧
    match c.payload with
    | .off => True
    | .static col => col.isBytes
    | .preset _ _ _ => True
    | .custom _ _ cs => 1 ≤ cs.length ∧ cs.length ≤ 4 ∧ ∀ col, col ∈ cs → col.isBytes

def PowerContext.token : PowerContext → String
  | .on => "on"
  | .suspend => "suspend"

def AnimatedMode.token : AnimatedMode → String
  | .breathing => "breathing"
  | .cycle => "cycle"
  | .blinking => "blinking"

def SpeedChoice.token : SpeedChoice → String
  | .slow => "slow"
  | .medium => "medium"
  | .fast => "fast"

def PresetTheme.token : PresetTheme → String
  | .galaxy => "galaxy"
  | .volcano => "volcano"
  | .jungo => "jungo"
  | .ocean => "ocean"

/-- The three decimal tokens of a colour. -/
def Color.tokens (c : Color) : List String := [toString c.r, toString c.g, toString c.b]

/-- The tokens of the mode and its arguments, as in the usage text. -/
def Payload.tokens : Payload → List String
  | .off => ["off"]
  | .static c => "static" :: c.tokens
  | .preset m s t => [m.token, s.token, t.token]
  | .custom m s cs => m.token :: s.token :: "custom" :: (cs.map Color.tokens).flatten

/-- The command line of a command, given the program name and a token for its zone. -/
def Command.argv (c : Command) (a0 zoneToken : String) : List String :=
  a0 :: zoneToken :: c.power.token :: c.payload.tokens

def decodePower (b : Nat) : Option PowerContext :=
  if b = Power.ON then some .on else if b = Power.SUSPEND then some .suspend else none

def decodeAnimated (b : Nat) : Option AnimatedMode :=
  if b = Mode.BREATHING then some .breathing
  else if b = Mode.CYCLE then some .cycle
  else if b = Mode.BLINKING then some .blinking
  else none

def decodeSpeed (b : Nat) : Option SpeedChoice :=
  if b = Speed.SLOW then some .slow
  else if b = Speed.MEDIUM then some .medium
  else if b = Speed.FAST then some .fast
  else none

def decodePreset (b : Nat) : Option PresetTheme :=
  if b = Theme.GALAXY then some .galaxy
  else if b = Theme.VOLCANO then some .volcano
  else if b = Theme.JUNGO then some .jungo
  else if b = Theme.OCEAN then some .ocean
  else none

/-- The colour a report carries: the slot of its zone. -/
def slotColor (r : Report) : Color := r.colors.getD (r.led - 1) ⟨0, 0, 0⟩

/-- The payload read from the reports of one command, the first being `r`. -/
def decodePayload (r : Report) (rs : List Report) : Option Payload :=
  if r.mode = Mode.OFF then some .off
  else if r.mode = Mode.STATIC then some (.static (slotColor r))
  else
    match decodeAnimated r.mode, decodeSpeed r.speed with
    | some m, some s =>
      if r.theme = Theme.CUSTOM then some (.custom m s (rs.map slotColor))
      else (decodePreset r.theme).map (fun t => .preset m s t)
    | _, _ => none

/-- The decoder: the command read from the fixed fields of the reports of one
command. -/
def decode (rs : List Report) : Option Command :=
  match rs with
  | [] => none
  | r :: _ =>
    match decodePower r.power, decodePayload r rs with
    | some pw, some pl => some ⟨r.led, pw, pl⟩
    | _, _ => none

/-! ## Basic facts about the parsers -/

theorem ParseLed_range (a : String) (l : Nat) (h : (ParseLed a l).1 = true) :
    1 ≤ (ParseLed a l).2 ∧ (ParseLed a l).2 ≤ 8 := by
  unfold ParseLed at h ⊢
  split_ifs at h ⊢
  · simp
  · simp
  · cases hs : stoi a with
    | none => simp [hs] at h
    | some v =>
      simp only [hs] at h ⊢
      by_cases hr : toUint8 v < 1 ∨ toUint8 v > N_LEDS
      · rw [if_pos hr] at h
        simp at h
      · rw [if_neg hr]
        simp only [N_LEDS] at hr
        omega

theorem ParseMode_cases (a : String) (m : Nat) (h : (ParseMode a m).1 = true) :
    (ParseMode a m).2 = Mode.OFF ∨ (ParseMode a m).2 = Mode.STATIC
      ∨ (ParseMode a m).2 = Mode.BREATHING ∨ (ParseMode a m).2 = Mode.CYCLE
      ∨ (ParseMode a m).2 = Mode.BLINKING := by
  unfold ParseMode at h ⊢
  split_ifs at h ⊢ <;> simp at h ⊢

theorem ParseColor_eq (argv : List String) (report : Report)
    (h : 1 ≤ report.led ∧ report.led ≤ 8) :
    ParseColor argv report = some (storeColor argv report) := by
  simp [ParseColor, storeColor, N_LEDS, h]

theorem storeColor_led (argv : List String) (report : Report) :
    (storeColor argv report).led = report.led := rfl

theorem customLoop_eq (env : Nat → HidOutcome) (argv : List String) (n : Nat) :
    ∀ (i : Nat) (report : Report) (dev : Dev), 1 ≤ report.led ∧ report.led ≤ 8 →
      customLoop env argv n i report dev = some (sendAll env (burst argv n i report) dev) := by
  induction n with
  | zero => intro i report dev _; rfl
  | succ n ih =>
    intro i report dev h
    have h1 : 1 ≤ ({ report with custom_color_id := (i + 1) % 256 } : Report).led
        ∧ ({ report with custom_color_id := (i + 1) % 256 } : Report).led ≤ 8 := h
    simp only [customLoop, burst, sendAll, ParseColor_eq _ _ h1]
    rcases hc : callSendReport env
      (storeColor (List.drop (i * 3) argv) { report with custom_color_id := (i + 1) % 256 }) dev
      with ⟨b, d⟩
    cases b
    · rfl
    · exact ih _ _ _ h1

theorem sendAll_single (env : Nat → HidOutcome) (r : Report) (dev : Dev) :
    sendAll env [r] dev = callSendReport env r dev := by
  unfold sendAll
  rcases callSendReport env r dev with ⟨b, d⟩
  cases b <;> rfl

/-- What `Run` does, in two stages: the command line is rejected before anything is
sent, or a list of reports is handed to `SendReport` in order until a call fails.  In
particular `Run` never indexes `colors` out of bounds. -/
theorem Run_eq (env : Nat → HidOutcome) (argv : List String) :
    Run env argv = some (match encode argv with
      | none => (false, Dev.empty)
      | some rs => sendAll env rs Dev.empty) := by
  unfold Run encode
  by_cases hlen : argv.length < 4
  · simp [hlen]
  simp only [hlen, if_false]
  have hled := ParseLed_range (arg argv 1) 0
  have hmode := ParseMode_cases (arg argv 3) 0
  rcases hl : ParseLed (arg argv 1) 0 with ⟨lb, led⟩
  rcases hp : ParsePower (arg argv 2) 0 with ⟨pb, power⟩
  rcases hm : ParseMode (arg argv 3) 0 with ⟨mb, mode⟩
  simp only [hl, hm] at hled hmode
  cases lb
  · simp [Report.zero, hl]
  cases pb
  · simp [Report.zero, hl, hp]
  cases mb
  · simp [Report.zero, hl, hp, hm]
  have hled := hled rfl
  have hmode := hmode rfl
  simp only [Report.zero, hl, hp, hm]
  generalize List.drop 4 argv = rest
  generalize hcols : List.drop 2 rest = cols
  rcases hs : ParseSpeed (arg rest 0) 0 with ⟨sb, speed⟩
  rcases ht : ParseTheme (arg rest 1) 0 with ⟨tb, theme⟩
  rcases hmode with rfl | rfl | rfl | rfl | rfl
  · simp [Mode.OFF, sendAll_single]
  · by_cases h3 : rest.length = 3
    · rw [ParseColor_eq _ _ hled]
      simp [Mode.OFF, Mode.STATIC, h3, sendAll_single, storeColor]
    · simp [Mode.OFF, Mode.STATIC, h3]
  all_goals
    by_cases h2 : rest.length < 2
    · simp [Mode.OFF, Mode.STATIC, Mode.BREATHING, Mode.CYCLE, Mode.BLINKING, h2]
    cases sb
    · simp [Mode.OFF, Mode.STATIC, Mode.BREATHING, Mode.CYCLE, Mode.BLINKING, h2]
    cases tb
    · simp [Mode.OFF, Mode.STATIC, Mode.BREATHING, Mode.CYCLE, Mode.BLINKING, h2]
    by_cases hc : theme = Theme.CUSTOM
    · by_cases har : cols.length ≠ 3 ∧ cols.length ≠ 6 ∧ cols.length ≠ 9 ∧ cols.length ≠ 12
      · simp [Mode.OFF, Mode.STATIC, Mode.BREATHING, Mode.CYCLE, Mode.BLINKING, h2, hc, har]
      · rw [customLoop_eq _ _ _ _ _ _ hled]
        simp [Mode.OFF, Mode.STATIC, Mode.BREATHING, Mode.CYCLE, Mode.BLINKING, h2, hc, har]
    · simp [Mode.OFF, Mode.STATIC, Mode.BREATHING, Mode.CYCLE, Mode.BLINKING, h2, hc,
        sendAll_single]

/-! ## The colour array -/

theorem replicate_set_self {α : Type} (n m : Nat) (a c : α) (h : m < n) :
    ((List.replicate n a).set m c)[m]? = some c := by
  simp [List.getElem?_set, h]

theorem replicate_set_other {α : Type} (n m j : Nat) (a c : α) (hj : j < n) (hne : j ≠ m) :
    ((List.replicate n a).set m c)[j]? = some a := by
  rw [List.getElem?_set]
  have hne2 : ¬ m = j := fun h => hne h.symm
  simp [hne2, List.getElem?_replicate, hj]

/-! ## The loop and the sends -/

theorem SendReport_fst (o : HidOutcome) (r : Report) : (SendReport o r).1 = sendOk o := by
  unfold sendOk SendReport
  split_ifs <;> rfl

theorem arg_drop (argv : List String) (n j : Nat) : arg (argv.drop n) j = arg argv (n + j) := by
  simp [arg, List.getD_eq_getElem?_getD, List.getElem?_drop]

theorem storeColor_drop (cols : List String) (i : Nat) (p : Report) :
    storeColor (cols.drop (i * 3)) p
      = { p with colors := p.colors.set (p.led - 1) (tripleAt cols i) } := by
  simp [storeColor, tripleAt, arg_drop, Nat.mul_comm]

theorem burstReport_burstReport (cols : List String) (p : Report) (i j : Nat) :
    burstReport cols (burstReport cols p i) j = burstReport cols p j := by
  simp [burstReport, List.set_set]

theorem burst_eq_map (cols : List String) (n : Nat) :
    ∀ (i : Nat) (p : Report),
      burst cols n i p = (List.range' i n).map (burstReport cols p) := by
  induction n with
  | zero => intro i p; rfl
  | succ n ih =>
    intro i p
    have h0 : storeColor (cols.drop (i * 3)) { p with custom_color_id := (i + 1) % 256 }
        = burstReport cols p i := by
      rw [storeColor_drop]; rfl
    have hf : burstReport cols (burstReport cols p i) = burstReport cols p :=
      funext (burstReport_burstReport cols p i)
    simp only [burst, h0, ih, List.range'_succ, List.map_cons, hf]

theorem callSendReport_fst (env : Nat → HidOutcome) (r : Report) (dev : Dev) :
    (callSendReport env r dev).1 = sendOk (env dev.sent.length) := by
  simp [callSendReport, SendReport_fst]

theorem callSendReport_sent (env : Nat → HidOutcome) (r : Report) (dev : Dev) :
    (callSendReport env r dev).2.sent = dev.sent ++ [r] := rfl

theorem callSendReport_empty (env : Nat → HidOutcome) (r : Report) :
    callSendReport env r Dev.empty = (sendOk (env 0), ⟨[r], (SendReport (env 0) r).2⟩) := by
  simp [callSendReport, SendReport_fst, Dev.empty]

theorem sendAll_cons (env : Nat → HidOutcome) (r : Report) (rs : List Report) (dev : Dev) :
    sendAll env (r :: rs) dev
      = if sendOk (env dev.sent.length) = true then sendAll env rs (callSendReport env r dev).2
        else (false, (callSendReport env r dev).2) := by
  have h1 := callSendReport_fst env r dev
  rw [sendAll]
  rcases hc : callSendReport env r dev with ⟨b, d⟩
  rw [hc] at h1
  simp only at h1
  subst h1
  cases hb : sendOk (env dev.sent.length) <;> simp

/-- With a library that never fails every report of the list is sent. -/
theorem sendAll_good (env : Nat → HidOutcome) (henv : ∀ n, sendOk (env n) = true)
    (rs : List Report) :
    ∀ dev : Dev, (sendAll env rs dev).1 = true ∧ (sendAll env rs dev).2.sent = dev.sent ++ rs := by
  induction rs with
  | nil => intro dev; simp [sendAll]
  | cons r rs ih =>
    intro dev
    have h1 := callSendReport_fst env r dev
    have h2 := callSendReport_sent env r dev
    rw [henv] at h1
    unfold sendAll
    rcases hc : callSendReport env r dev with ⟨b, d⟩
    rw [hc] at h1 h2
    simp only at h1 h2
    subst h1
    simp only
    rw [(ih d).2, h2]
    exact ⟨(ih d).1, by simp⟩

/-- The reports sent are an initial segment of the list, and a failed send is the last
one and makes the result `false`. -/
theorem sendAll_stop (env : Nat → HidOutcome) (rs : List Report) :
    ∀ dev : Dev, ∃ m, m ≤ rs.length
      ∧ (sendAll env rs dev).2.sent = dev.sent ++ rs.take m
      ∧ (∀ j, j < m → sendOk (env (dev.sent.length + j)) = false
            → j + 1 = m ∧ (sendAll env rs dev).1 = false)
      ∧ ((sendAll env rs dev).1 = true → m = rs.length)
      ∧ ((sendAll env rs dev).1 = false
            → 1 ≤ m ∧ sendOk (env (dev.sent.length + (m - 1))) = false) := by
  induction rs with
  | nil => intro dev; exact ⟨0, by simp [sendAll]⟩
  | cons r rs ih =>
    intro dev
    have h1 := callSendReport_fst env r dev
    have h2 := callSendReport_sent env r dev
    unfold sendAll
    rcases hc : callSendReport env r dev with ⟨b, d⟩
    rw [hc] at h1 h2
    simp only at h1 h2
    cases b
    · refine ⟨1, by simp, by simp [h2], ?_, by simp, ?_⟩
      · intro j hj _
        exact ⟨by omega, rfl⟩
      · intro _
        exact ⟨le_refl 1, by simpa using h1.symm⟩
    · obtain ⟨m, hm, hsent, hstop, htrue, hfalse⟩ := ih d
      have hlen : d.sent.length = dev.sent.length + 1 := by simp [h2]
      refine ⟨m + 1, by simpa using hm, ?_, ?_, ?_, ?_⟩
      · simp only [hsent, h2, List.take_succ_cons, List.append_assoc, List.singleton_append]
      · intro j hj hfail
        cases j with
        | zero => simp [← h1] at hfail
        | succ j =>
          have := hstop j (by omega) (by rw [hlen]; rw [← hfail]; congr 2; omega)
          exact ⟨by omega, this.2⟩
      · intro ht
        simp [htrue ht]
      · intro hf
        obtain ⟨hm1, hlast⟩ := hfalse hf
        refine ⟨by omega, ?_⟩
        rw [← hlast, hlen]
        congr 2
        omega

/-! ## The reports of each kind of command -/

set_option maxRecDepth 1000000 in
/-- A decimal token of a byte value is read back by `atoi` unchanged. -/
theorem atoi_toString : ∀ n, n < 256 → toUint8 (atoi (toString n)) = n := by decide

theorem ParseMode_animated (mode : String)
    (hm : mode = "breathing" ∨ mode = "cycle" ∨ mode = "blinking") :
    (ParseMode mode 0).1 = true ∧ (ParseMode mode 0).2 ≠ Mode.OFF
      ∧ (ParseMode mode 0).2 ≠ Mode.STATIC := by
  rcases hm with rfl | rfl | rfl <;> decide

/-- The report `Run` builds for a static command. -/
theorem encode_static (a0 zone power t1 t2 t3 : String) (led pw : Nat)
    (hz : ParseLed zone 0 = (true, led)) (hp : ParsePower power 0 = (true, pw)) :
    encode [a0, zone, power, "static", t1, t2, t3]
      = some [{ Report.zero with
                version := VERSION, mode := Mode.STATIC, led := led, power := pw,
                custom_color_count := 1, custom_color_id := 1,
                brightness := MAX_BRIGHTNESS, type := Type.STATIC,
                colors := (List.replicate 8 ⟨0, 0, 0⟩).set (led - 1)
                  ⟨toUint8 (atoi t1), toUint8 (atoi t2), toUint8 (atoi t3)⟩ }] := by
  have hmode : ParseMode "static" 0 = (true, Mode.STATIC) := by decide
  simp [encode, arg, hz, hp, hmode, Mode.STATIC, Mode.OFF, storeColor, Report.zero, N_LEDS]

/-- The reports `Run` builds for a custom-theme animated command. -/
theorem encode_custom (a0 zone power mode speed : String) (cols : List String)
    (led pw sp k : Nat)
    (hz : ParseLed zone 0 = (true, led)) (hp : ParsePower power 0 = (true, pw))
    (hm : mode = "breathing" ∨ mode = "cycle" ∨ mode = "blinking")
    (hs : ParseSpeed speed 0 = (true, sp))
    (hk : 1 ≤ k ∧ k ≤ 4) (hlen : cols.length = 3 * k) :
    encode (a0 :: zone :: power :: mode :: speed :: "custom" :: cols)
      = some ((List.range' 0 k).map
          (burstReport cols (customBase (ParseMode mode 0).2 led pw sp k))) := by
  obtain ⟨hm1, hm2, hm3⟩ := ParseMode_animated mode hm
  have ht : ParseTheme "custom" 0 = (true, Theme.CUSTOM) := by decide
  have hk3 : cols.length / 3 % 256 = k := by omega
  have har : ¬(cols.length ≠ 3 ∧ cols.length ≠ 6 ∧ cols.length ≠ 9 ∧ cols.length ≠ 12) := by
    omega
  unfold encode
  simp only [arg, List.length_cons, List.getD_cons_succ, List.getD_cons_zero, List.drop_succ_cons,
    List.drop_zero, hz, hp, hs, ht, hm1, hm2, hm3, har, hk3, burst_eq_map, customBase]
  simp

/-! ## Zone parsing (C1, C5) -/

/-- C1, evaluated at the failing input: the zone token 257 is an integer outside
[1,8], yet `ParseLed` accepts it as zone 1, because the value is narrowed to a byte
before the range check, and `Run` sends a report for zone 1.  The token 3x, which is
not a decimal integer, is accepted as zone 3. -/
theorem C1_ParseLed_accepts_257 :
    ParseLed "257" 0 = (true, 1) ∧ ParseLed "3x" 0 = (true, 3)
      ∧ (Run goodEnv ["omen_light", "257", "on", "off"]).map
          (fun x => (x.1, x.2.sent.map Report.led)) = some (true, [1]) := by
  decide

/-! ## Static commands (C2) -/

/-- C2 as stated fails: for zone 2 the static colour (255,0,0) is not in colour slot 0,
which stays zero; it is in slot 1. -/
theorem C2_slot0_counterexample :
    (Run goodEnv ["omen_light", "2", "on", "static", "255", "0", "0"]).map
        (fun x => (x.1, x.2.sent.map (fun r => r.colors.take 2)))
      = some (true, [[⟨0, 0, 0⟩, ⟨255, 0, 0⟩]]) := by
  decide

/-- C2, amended: for every zone token and power token the parsers accept and every
r, g, b in 0..255, the command `zone power static r g b` makes `Run` hand exactly one
report to `SendReport` and return what that call returns; the report has mode STATIC,
type STATIC, custom_color_count 1, custom_color_id 1, brightness 100, and the colour
(r, g, b) in slot `led - 1`, where `led` is the parsed zone index. -/
theorem C2_static_report (env : Nat → HidOutcome) (a0 zone power : String)
    (led pw r g b : Nat)
    (hz : ParseLed zone 0 = (true, led)) (hp : ParsePower power 0 = (true, pw))
    (hr : r < 256) (hg : g < 256) (hb : b < 256) :
    ∃ dev rep,
      Run env [a0, zone, power, "static", toString r, toString g, toString b]
          = some (sendOk (env 0), dev)
        ∧ dev.sent = [rep]
        ∧ rep.mode = Mode.STATIC ∧ rep.type = Type.STATIC
        ∧ rep.custom_color_count = 1 ∧ rep.custom_color_id = 1
        ∧ rep.brightness = 100
        ∧ rep.colors[led - 1]? = some ⟨r, g, b⟩ := by
  have hrange := ParseLed_range zone 0 (by rw [hz])
  rw [hz] at hrange
  rw [Run_eq, encode_static a0 zone power _ _ _ led pw hz hp]
  simp only [sendAll_single, callSendReport_empty, atoi_toString r hr, atoi_toString g hg,
    atoi_toString b hb]
  refine ⟨_, _, rfl, rfl, rfl, rfl, rfl, rfl, rfl, ?_⟩
  simp only [List.getElem?_set, List.length_replicate]
  simp
  omega

/-- C2, amended, at the command `2 on static 255 0 0`. -/
theorem C2_static_report_witness :
    ∃ dev rep,
      Run goodEnv ["omen_light", "2", "on", "static", toString 255, toString 0, toString 0]
          = some (sendOk (goodEnv 0), dev)
        ∧ dev.sent = [rep]
        ∧ rep.mode = Mode.STATIC ∧ rep.type = Type.STATIC
        ∧ rep.custom_color_count = 1 ∧ rep.custom_color_id = 1
        ∧ rep.brightness = 100
        ∧ rep.colors[2 - 1]? = some ⟨255, 0, 0⟩ :=
  C2_static_report goodEnv "omen_light" "2" "on" 2 1 255 0 0 (by decide) (by decide)
    (by decide) (by decide) (by decide)

/-! ## Custom-theme bursts (C3, C4, C6) -/

/-- When no send fails, `Run` returns `true` and sends exactly the encoded reports. -/
theorem Run_good (env : Nat → HidOutcome) (henv : ∀ n, sendOk (env n) = true)
    (argv : List String) (rs : List Report) (henc : encode argv = some rs) :
    ∃ dev, Run env argv = some (true, dev) ∧ dev.sent = rs := by
  obtain ⟨h1, h2⟩ := sendAll_good env henv rs Dev.empty
  rw [Run_eq, henc]
  show ∃ dev, some (sendAll env rs Dev.empty) = some (true, dev) ∧ dev.sent = rs
  rcases hsa : sendAll env rs Dev.empty with ⟨b, d⟩
  rw [hsa] at h1 h2
  simp only at h1 h2
  subst h1
  exact ⟨d, rfl, by simpa [Dev.empty] using h2⟩

/-- A rejected command line: `Run` returns `false` and nothing is sent. -/
theorem Run_reject (env : Nat → HidOutcome) (argv : List String) (henc : encode argv = none) :
    Run env argv = some (false, Dev.empty) := by
  rw [Run_eq, henc]


/-- What `Run` does for a custom-theme animated command when no send fails: the
result is `true` and the reports sent are those of the loop iterations `0 .. k-1`. -/
theorem Run_custom_good (env : Nat → HidOutcome) (henv : ∀ n, sendOk (env n) = true)
    (a0 zone power mode speed : String) (cols : List String) (led pw sp k : Nat)
    (hz : ParseLed zone 0 = (true, led)) (hp : ParsePower power 0 = (true, pw))
    (hm : mode = "breathing" ∨ mode = "cycle" ∨ mode = "blinking")
    (hs : ParseSpeed speed 0 = (true, sp))
    (hk : 1 ≤ k ∧ k ≤ 4) (hlen : cols.length = 3 * k) :
    ∃ dev, Run env (a0 :: zone :: power :: mode :: speed :: "custom" :: cols) = some (true, dev)
      ∧ dev.sent = (List.range' 0 k).map
          (burstReport cols (customBase (ParseMode mode 0).2 led pw sp k)) := by
  exact Run_good env henv _ _
    (encode_custom a0 zone power mode speed cols led pw sp k hz hp hm hs hk hlen)

/-- C3 as stated fails: for zone `front` and two colours, the second report carries
its colour (0,0,255) in slot 0, not slot 1, and slot 1 is zero. -/
theorem C3_slot_counterexample :
    (Run goodEnv ["omen_light", "front", "on", "blinking", "medium", "custom",
                  "255", "0", "0", "0", "0", "255"]).map
        (fun x => (x.1, x.2.sent.map (fun r => r.colors.take 2)))
      = some (true, [[⟨255, 0, 0⟩, ⟨0, 0, 0⟩], [⟨0, 0, 255⟩, ⟨0, 0, 0⟩]]) := by
  decide

/-- C3, amended: for every animated mode, custom theme and k colour triples with k in
{1,2,3,4}, zone, power and speed tokens the parsers accept, and a transport on which
every send succeeds, `Run` returns `true` having sent k reports, and report i
(1-indexed; index `i` below is 0-indexed) holds triple i in colour slot `led - 1`,
where `led` is the parsed zone index, and every other of its eight colour slots is
zero. -/
theorem C3_custom_burst_slot (env : Nat → HidOutcome) (henv : ∀ n, sendOk (env n) = true)
    (a0 zone power mode speed : String) (cols : List String) (led pw sp k : Nat)
    (hz : ParseLed zone 0 = (true, led)) (hp : ParsePower power 0 = (true, pw))
    (hm : mode = "breathing" ∨ mode = "cycle" ∨ mode = "blinking")
    (hs : ParseSpeed speed 0 = (true, sp))
    (hk : 1 ≤ k ∧ k ≤ 4) (hlen : cols.length = 3 * k) :
    ∃ dev, Run env (a0 :: zone :: power :: mode :: speed :: "custom" :: cols) = some (true, dev)
      ∧ dev.sent.length = k
      ∧ ∀ i, i < k → ∃ rep, dev.sent[i]? = some rep
          ∧ rep.colors.length = 8
          ∧ rep.colors[led - 1]? = some (tripleAt cols i)
          ∧ ∀ j, j < 8 → j ≠ led - 1 → rep.colors[j]? = some ⟨0, 0, 0⟩ := by
  obtain ⟨dev, hrun, hsent⟩ :=
    Run_custom_good env henv a0 zone power mode speed cols led pw sp k hz hp hm hs hk hlen
  have hrange := ParseLed_range zone 0 (by rw [hz])
  rw [hz] at hrange
  refine ⟨dev, hrun, by simp [hsent], ?_⟩
  intro i hi
  refine ⟨burstReport cols (customBase (ParseMode mode 0).2 led pw sp k) i, ?_, ?_, ?_, ?_⟩
  · rw [hsent]
    simp [List.getElem?_map, List.getElem?_range', hi]
  · simp [burstReport, customBase, Report.zero, N_LEDS]
  · exact replicate_set_self 8 (led - 1) _ _ (by simp only at hrange; omega)
  · intro j hj hne
    exact replicate_set_other 8 (led - 1) j _ _ hj hne

/-- C3, amended, at `chase on breathing slow custom 1 2 3 4 5 6`. -/
theorem C3_custom_burst_slot_witness :
    ∃ dev, Run goodEnv ("omen_light" :: "chase" :: "on" :: "breathing" :: "slow" :: "custom"
              :: ["1", "2", "3", "4", "5", "6"]) = some (true, dev)
      ∧ dev.sent.length = 2
      ∧ ∀ i, i < 2 → ∃ rep, dev.sent[i]? = some rep
          ∧ rep.colors.length = 8
          ∧ rep.colors[2 - 1]? = some (tripleAt ["1", "2", "3", "4", "5", "6"] i)
          ∧ ∀ j, j < 8 → j ≠ 2 - 1 → rep.colors[j]? = some ⟨0, 0, 0⟩ :=
  C3_custom_burst_slot goodEnv (fun _ => rfl) "omen_light" "chase" "on" "breathing" "slow"
    ["1", "2", "3", "4", "5", "6"] 2 1 1 2 (by decide) (by decide) (by decide) (by decide)
    (by decide) (by decide)

/-- C4: for every animated mode, custom theme and k colour triples with k in
{1,2,3,4}, zone, power and speed tokens the parsers accept, and a transport on which
every send succeeds, `Run` returns `true` having sent exactly k reports, in order;
report i (1-indexed; index `i` below is 0-indexed) has custom_color_count k and
custom_color_id i, and apart from custom_color_id and the colour array every report is
the same: the parsed mode, type CHANGING, theme CUSTOM, the parsed speed, brightness
100, the parsed zone and power, version 0x12, and zero elsewhere. -/
theorem C4_custom_burst_fields (env : Nat → HidOutcome) (henv : ∀ n, sendOk (env n) = true)
    (a0 zone power mode speed : String) (cols : List String) (led pw sp k : Nat)
    (hz : ParseLed zone 0 = (true, led)) (hp : ParsePower power 0 = (true, pw))
    (hm : mode = "breathing" ∨ mode = "cycle" ∨ mode = "blinking")
    (hs : ParseSpeed speed 0 = (true, sp))
    (hk : 1 ≤ k ∧ k ≤ 4) (hlen : cols.length = 3 * k) :
    ∃ dev, Run env (a0 :: zone :: power :: mode :: speed :: "custom" :: cols) = some (true, dev)
      ∧ dev.sent.length = k
      ∧ ∀ i, i < k → ∃ rep, dev.sent[i]? = some rep
          ∧ rep.custom_color_count = k
          ∧ rep.custom_color_id = i + 1
          ∧ { rep with custom_color_id := 0, colors := [] }
              = { Report.zero with
                  version := 0x12, mode := (ParseMode mode 0).2, type := Type.CHANGING,
                  theme := Theme.CUSTOM, speed := sp, brightness := 100,
                  led := led, power := pw, custom_color_count := k, colors := [] } := by
  obtain ⟨dev, hrun, hsent⟩ :=
    Run_custom_good env henv a0 zone power mode speed cols led pw sp k hz hp hm hs hk hlen
  refine ⟨dev, hrun, by simp [hsent], ?_⟩
  intro i hi
  refine ⟨burstReport cols (customBase (ParseMode mode 0).2 led pw sp k) i, ?_, rfl, ?_, rfl⟩
  · rw [hsent]
    simp [List.getElem?_map, List.getElem?_range', hi]
  · show (i + 1) % 256 = i + 1
    omega

/-- C4 at `chase on breathing slow custom 1 2 3 4 5 6`. -/
theorem C4_custom_burst_fields_witness :
    ∃ dev, Run goodEnv ("omen_light" :: "chase" :: "on" :: "breathing" :: "slow" :: "custom"
              :: ["1", "2", "3", "4", "5", "6"]) = some (true, dev)
      ∧ dev.sent.length = 2
      ∧ ∀ i, i < 2 → ∃ rep, dev.sent[i]? = some rep
          ∧ rep.custom_color_count = 2
          ∧ rep.custom_color_id = i + 1
          ∧ { rep with custom_color_id := 0, colors := [] }
              = { Report.zero with
                  version := 0x12, mode := (ParseMode "breathing" 0).2, type := Type.CHANGING,
                  theme := Theme.CUSTOM, speed := 1, brightness := 100,
                  led := 2, power := 1, custom_color_count := 2, colors := [] } :=
  C4_custom_burst_fields goodEnv (fun _ => rfl) "omen_light" "chase" "on" "breathing" "slow"
    ["1", "2", "3", "4", "5", "6"] 2 1 1 2 (by decide) (by decide) (by decide) (by decide)
    (by decide) (by decide)

/-- C6: for every animated mode with theme `custom`, if the number of tokens after
speed and theme is not 3, 6, 9 or 12, `Run` returns `false` and nothing is handed to
`SendReport`, whatever the zone, power and speed tokens are and whatever the transport
would do. -/
theorem C6_custom_arity_rejected (env : Nat → HidOutcome)
    (a0 zone power mode speed : String) (cols : List String)
    (hm : mode = "breathing" ∨ mode = "cycle" ∨ mode = "blinking")
    (hlen : cols.length ≠ 3 ∧ cols.length ≠ 6 ∧ cols.length ≠ 9 ∧ cols.length ≠ 12) :
    Run env (a0 :: zone :: power :: mode :: speed :: "custom" :: cols)
      = some (false, Dev.empty) := by
  apply Run_reject
  obtain ⟨hm1, hm2, hm3⟩ := ParseMode_animated mode hm
  have ht : ParseTheme "custom" 0 = (true, Theme.CUSTOM) := by decide
  unfold encode
  simp only [arg, List.length_cons, List.getD_cons_succ, List.getD_cons_zero, List.drop_succ_cons,
    List.drop_zero, ht, hm1, hm2, hm3, hlen]
  simp only [ne_eq] at hlen
  simp [hlen]

/-- C6 at 15 colour tokens (5 triples), with a transport that would fail. -/
theorem C6_custom_arity_rejected_witness :
    Run (fun _ => ⟨true, true, true, true⟩)
        ("omen_light" :: "front" :: "on" :: "cycle" :: "fast" :: "custom"
          :: ["1", "2", "3", "4", "5", "6", "7", "8", "9", "10", "11", "12", "13", "14", "15"])
      = some (false, Dev.empty) :=
  C6_custom_arity_rejected _ "omen_light" "front" "on" "cycle" "fast" _ (by decide) (by decide)

/-! ## Facts about every report of every command -/

/-- Every report `Run` builds: the zone, power and mode are the parsed ones, the
report id is 0, the version is the constant, and the brightness is 0 for mode OFF
and the maximum otherwise. -/
theorem encode_mem (argv : List String) (rs : List Report) (r : Report)
    (henc : encode argv = some rs) (hr : r ∈ rs) :
    ParseLed (arg argv 1) 0 = (true, r.led) ∧ ParsePower (arg argv 2) 0 = (true, r.power)
      ∧ ParseMode (arg argv 3) 0 = (true, r.mode) ∧ r.report_id = 0 ∧ r.version = VERSION
      ∧ r.brightness = (if r.mode = Mode.OFF then 0 else MAX_BRIGHTNESS) := by
  unfold encode at henc
  by_cases hlen : argv.length < 4
  · simp [hlen] at henc
  simp only [hlen, if_false] at henc
  have hmode := ParseMode_cases (arg argv 3) 0
  rcases hl : ParseLed (arg argv 1) 0 with ⟨lb, led⟩
  rcases hp : ParsePower (arg argv 2) 0 with ⟨pb, power⟩
  rcases hm : ParseMode (arg argv 3) 0 with ⟨mb, mode⟩
  simp only [hl, hp, hm] at henc hmode
  cases lb
  · simp at henc
  cases pb
  · simp at henc
  cases mb
  · simp at henc
  generalize List.drop 4 argv = rest at henc
  generalize List.drop 2 rest = cols at henc
  rcases hs : ParseSpeed (arg rest 0) 0 with ⟨sb, speed⟩
  rcases ht : ParseTheme (arg rest 1) 0 with ⟨tb, theme⟩
  simp only [hs, ht] at henc
  have hsome : ∀ (a b : List Report), some a = some b → a = b := fun a b h => by simpa using h
  rcases hmode rfl with rfl | rfl | rfl | rfl | rfl
  · simp [Mode.OFF] at henc
    subst henc
    simp at hr
    subst hr
    simp [Report.zero, Mode.OFF]
  · by_cases h3 : rest.length = 3
    · simp [Mode.OFF, Mode.STATIC, h3] at henc
      subst henc
      simp at hr
      subst hr
      simp [Report.zero, Mode.OFF, Mode.STATIC, storeColor]
    · simp [Mode.OFF, Mode.STATIC, h3] at henc
  all_goals
    by_cases h2 : rest.length < 2
    · simp [Mode.OFF, Mode.STATIC, Mode.BREATHING, Mode.CYCLE, Mode.BLINKING, h2] at henc
    cases sb
    · simp [Mode.OFF, Mode.STATIC, Mode.BREATHING, Mode.CYCLE, Mode.BLINKING, h2] at henc
    cases tb
    · simp [Mode.OFF, Mode.STATIC, Mode.BREATHING, Mode.CYCLE, Mode.BLINKING, h2] at henc
    by_cases hc : theme = Theme.CUSTOM
    · by_cases har : cols.length ≠ 3 ∧ cols.length ≠ 6 ∧ cols.length ≠ 9 ∧ cols.length ≠ 12
      · simp [Mode.OFF, Mode.STATIC, Mode.BREATHING, Mode.CYCLE, Mode.BLINKING, h2, hc, har]
          at henc
      · simp only [Mode.OFF, Mode.STATIC, Mode.BREATHING, Mode.CYCLE, Mode.BLINKING, h2, hc, har,
          if_false, if_true, burst_eq_map] at henc
        simp only [Nat.reduceEqDiff, if_false, if_true, false_or, or_false, or_self,
          reduceCtorEq] at henc
        have henc := hsome _ _ henc
        subst henc
        simp only [List.mem_map] at hr
        obtain ⟨j, _, rfl⟩ := hr
        simp [burstReport, Report.zero, Mode.OFF, Mode.BREATHING, Mode.CYCLE, Mode.BLINKING]
    · simp [Mode.OFF, Mode.STATIC, Mode.BREATHING, Mode.CYCLE, Mode.BLINKING, h2, hc] at henc
      subst henc
      simp at hr
      subst hr
      simp [Report.zero, Mode.OFF, Mode.BREATHING, Mode.CYCLE, Mode.BLINKING]

/-- A command line that `Run` accepts is encoded as at least 1 and at most 4 reports. -/
theorem encode_length (argv : List String) (rs : List Report)
    (henc : encode argv = some rs) : 1 ≤ rs.length ∧ rs.length ≤ 4 := by
  unfold encode at henc
  by_cases hlen : argv.length < 4
  · simp [hlen] at henc
  simp only [hlen, if_false] at henc
  have hmode := ParseMode_cases (arg argv 3) 0
  rcases hl : ParseLed (arg argv 1) 0 with ⟨lb, led⟩
  rcases hp : ParsePower (arg argv 2) 0 with ⟨pb, power⟩
  rcases hm : ParseMode (arg argv 3) 0 with ⟨mb, mode⟩
  simp only [hl, hp, hm] at henc hmode
  cases lb
  · simp at henc
  cases pb
  · simp at henc
  cases mb
  · simp at henc
  generalize List.drop 4 argv = rest at henc
  generalize List.drop 2 rest = cols at henc
  rcases hs : ParseSpeed (arg rest 0) 0 with ⟨sb, speed⟩
  rcases ht : ParseTheme (arg rest 1) 0 with ⟨tb, theme⟩
  simp only [hs, ht] at henc
  have hsome : ∀ (a b : List Report), some a = some b → a = b := fun a b h => by simpa using h
  rcases hmode rfl with rfl | rfl | rfl | rfl | rfl
  · simp [Mode.OFF] at henc
    subst henc
    simp
  · by_cases h3 : rest.length = 3
    · simp [Mode.OFF, Mode.STATIC, h3] at henc
      subst henc
      simp
    · simp [Mode.OFF, Mode.STATIC, h3] at henc
  all_goals
    by_cases h2 : rest.length < 2
    · simp [Mode.OFF, Mode.STATIC, Mode.BREATHING, Mode.CYCLE, Mode.BLINKING, h2] at henc
    cases sb
    · simp [Mode.OFF, Mode.STATIC, Mode.BREATHING, Mode.CYCLE, Mode.BLINKING, h2] at henc
    cases tb
    · simp [Mode.OFF, Mode.STATIC, Mode.BREATHING, Mode.CYCLE, Mode.BLINKING, h2] at henc
    by_cases hc : theme = Theme.CUSTOM
    · by_cases har : cols.length ≠ 3 ∧ cols.length ≠ 6 ∧ cols.length ≠ 9 ∧ cols.length ≠ 12
      · simp [Mode.OFF, Mode.STATIC, Mode.BREATHING, Mode.CYCLE, Mode.BLINKING, h2, hc, har]
          at henc
      · simp only [Mode.OFF, Mode.STATIC, Mode.BREATHING, Mode.CYCLE, Mode.BLINKING, h2, hc, har,
          if_false, if_true, burst_eq_map] at henc
        simp only [Nat.reduceEqDiff, if_false, if_true, false_or, or_false, or_self,
          reduceCtorEq] at henc
        have henc := hsome _ _ henc
        subst henc
        simp only [List.length_map, List.length_range']
        omega
    · simp [Mode.OFF, Mode.STATIC, Mode.BREATHING, Mode.CYCLE, Mode.BLINKING, h2, hc] at henc
      subst henc
      simp

/-- The function `Run` always returns, and whatever it hands to `SendReport` is one of the encoded
reports of the command line. -/
theorem Run_sent_mem (env : Nat → HidOutcome) (argv : List String) :
    ∃ x, Run env argv = some x
      ∧ ∀ rep, rep ∈ x.2.sent → ∃ rs, encode argv = some rs ∧ rep ∈ rs := by
  rw [Run_eq]
  cases henc : encode argv with
  | none => exact ⟨_, rfl, by simp [Dev.empty]⟩
  | some rs =>
    refine ⟨_, rfl, ?_⟩
    obtain ⟨m, _, hsent, _⟩ := sendAll_stop env rs Dev.empty
    intro rep hrep
    simp only at hrep
    rw [hsent] at hrep
    simp only [Dev.empty, List.nil_append] at hrep
    exact ⟨rs, rfl, List.mem_of_mem_take hrep⟩

/-- C5: each of the ten valid zone tokens is accepted by `ParseLed` with the stated
index (`front` 1, `chase` 2, the decimal token of n gives n for n in 1..8), whatever
the pointee held before, and for every command line with that zone token `Run`
returns and every report it hands to `SendReport` has that index in its led field. -/
theorem C5_zone_tokens (z : String) (led : Nat) (hz : (z, led) ∈ zoneTokens) :
    (∀ l, ParseLed z l = (true, led))
      ∧ ∀ (env : Nat → HidOutcome) (a0 : String) (rest : List String),
          ∃ x, Run env (a0 :: z :: rest) = some x ∧ ∀ rep, rep ∈ x.2.sent → rep.led = led := by
  have hall : ∀ p ∈ zoneTokens, ParseLed p.1 0 = (true, p.2) := by decide
  have h0 : ParseLed z 0 = (true, led) := hall (z, led) hz
  constructor
  · intro l
    unfold ParseLed at h0 ⊢
    split_ifs at h0 ⊢ with h1 h2
    · exact h0
    · exact h0
    · cases hs : stoi z with
      | none => simp [hs] at h0
      | some v =>
        simp only [hs] at h0 ⊢
        exact h0
  · intro env a0 rest
    obtain ⟨x, hx, hmem⟩ := Run_sent_mem env (a0 :: z :: rest)
    refine ⟨x, hx, ?_⟩
    intro rep hrep
    obtain ⟨rs, henc, hin⟩ := hmem rep hrep
    have hl := (encode_mem _ rs rep henc hin).1
    simp only [arg, List.getD_cons_succ, List.getD_cons_zero] at hl
    rw [h0] at hl
    simpa using (congrArg Prod.snd hl).symm

/-- C5 at the token `7`, with a command that sends two reports. -/
theorem C5_zone_tokens_witness :
    (∀ l, ParseLed "7" l = (true, 7))
      ∧ ∀ (env : Nat → HidOutcome) (a0 : String) (rest : List String),
          ∃ x, Run env (a0 :: "7" :: rest) = some x ∧ ∀ rep, rep ∈ x.2.sent → rep.led = 7 :=
  C5_zone_tokens "7" 7 (by decide)

/-! ## Predefined themes (C7) -/

/-- C7: for every animated mode, every speed token `ParseSpeed` accepts, every
predefined theme (galaxy, volcano, jungo, ocean), zone and power tokens the parsers
accept, and every list of trailing tokens after the theme, `Run` hands exactly one
report to `SendReport` and returns what that call returns.  The report has the
animated mode, type CHANGING, custom_color_count 1, custom_color_id 1, brightness 100,
the parsed theme and speed, and all eight colour slots zero; it does not depend on the
trailing tokens. -/
theorem C7_predefined_theme (env : Nat → HidOutcome)
    (a0 zone power mode speed theme : String) (trailing : List String) (led pw sp : Nat)
    (hz : ParseLed zone 0 = (true, led)) (hp : ParsePower power 0 = (true, pw))
    (hm : mode = "breathing" ∨ mode = "cycle" ∨ mode = "blinking")
    (hs : ParseSpeed speed 0 = (true, sp))
    (ht : theme = "galaxy" ∨ theme = "volcano" ∨ theme = "jungo" ∨ theme = "ocean") :
    ∃ dev rep,
      Run env (a0 :: zone :: power :: mode :: speed :: theme :: trailing)
          = some (sendOk (env 0), dev)
        ∧ dev.sent = [rep]
        ∧ rep = { Report.zero with
                  version := VERSION, mode := (ParseMode mode 0).2, type := Type.CHANGING,
                  custom_color_count := 1, custom_color_id := 1, brightness := 100,
                  theme := (ParseTheme theme 0).2, speed := sp, led := led, power := pw }
        ∧ rep.colors = List.replicate 8 ⟨0, 0, 0⟩
        ∧ (rep.mode = Mode.BREATHING ∨ rep.mode = Mode.CYCLE ∨ rep.mode = Mode.BLINKING) := by
  obtain ⟨hm1, hm2, hm3⟩ := ParseMode_animated mode hm
  have hmv : (ParseMode mode 0).2 = Mode.BREATHING ∨ (ParseMode mode 0).2 = Mode.CYCLE
      ∨ (ParseMode mode 0).2 = Mode.BLINKING := by
    rcases hm with rfl | rfl | rfl <;> decide
  have ht1 : (ParseTheme theme 0).1 = true ∧ (ParseTheme theme 0).2 ≠ Theme.CUSTOM := by
    rcases ht with rfl | rfl | rfl | rfl <;> decide
  have henc : encode (a0 :: zone :: power :: mode :: speed :: theme :: trailing)
      = some [{ Report.zero with
                  version := VERSION, mode := (ParseMode mode 0).2, type := Type.CHANGING,
                  custom_color_count := 1, custom_color_id := 1, brightness := 100,
                  theme := (ParseTheme theme 0).2, speed := sp, led := led, power := pw }] := by
    unfold encode
    simp only [arg, List.length_cons, List.getD_cons_succ, List.getD_cons_zero,
      List.drop_succ_cons, List.drop_zero, hz, hp, hs, hm1, hm2, hm3, ht1.1, ht1.2]
    simp [MAX_BRIGHTNESS]
  rw [Run_eq, henc]
  simp only [sendAll_single, callSendReport_empty]
  exact ⟨_, _, rfl, rfl, rfl, rfl, hmv⟩

/-- C7 at `front suspend cycle fast galaxy` followed by three leftover tokens. -/
theorem C7_predefined_theme_witness :
    ∃ dev rep,
      Run goodEnv ("omen_light" :: "front" :: "suspend" :: "cycle" :: "fast" :: "galaxy"
                    :: ["255", "0", "x"])
          = some (sendOk (goodEnv 0), dev)
        ∧ dev.sent = [rep]
        ∧ rep = { Report.zero with
                  version := VERSION, mode := (ParseMode "cycle" 0).2, type := Type.CHANGING,
                  custom_color_count := 1, custom_color_id := 1, brightness := 100,
                  theme := (ParseTheme "galaxy" 0).2, speed := 3, led := 1, power := 2 }
        ∧ rep.colors = List.replicate 8 ⟨0, 0, 0⟩
        ∧ (rep.mode = Mode.BREATHING ∨ rep.mode = Mode.CYCLE ∨ rep.mode = Mode.BLINKING) :=
  C7_predefined_theme goodEnv "omen_light" "front" "suspend" "cycle" "fast" "galaxy"
    ["255", "0", "x"] 1 2 3 (by decide) (by decide) (by decide) (by decide) (by decide)

/-! ## Transmission (C8, C9, C10) -/

/-- C8: for every command line and every behaviour of the transport, `Run` returns,
and if the send of report j (0-indexed) fails then report j is the last one handed to
`SendReport` and `Run` returns `false`; hence `Run` returns `true` only if every send
succeeded.  In particular, for a 3-colour custom burst whose 1st send succeeds and
whose 2nd send fails, `Run` returns `false` after exactly 2 calls of `SendReport`. -/
theorem C8_stop_at_first_failure :
    (∀ (env : Nat → HidOutcome) (argv : List String),
        ∃ b dev, Run env argv = some (b, dev)
          ∧ (∀ j, j < dev.sent.length → sendOk (env j) = false
                → dev.sent.length = j + 1 ∧ b = false)
          ∧ (b = true → ∀ j, j < dev.sent.length → sendOk (env j) = true))
      ∧ (∀ (env : Nat → HidOutcome), sendOk (env 0) = true → sendOk (env 1) = false →
          ∃ dev, Run env ["omen_light", "front", "on", "breathing", "slow", "custom",
                          "255", "0", "0", "0", "255", "0", "0", "0", "255"]
                  = some (false, dev)
            ∧ dev.sent.length = 2) := by
  have hgen : ∀ (env : Nat → HidOutcome) (argv : List String),
      ∃ b dev, Run env argv = some (b, dev)
        ∧ (∀ j, j < dev.sent.length → sendOk (env j) = false
              → dev.sent.length = j + 1 ∧ b = false)
        ∧ (b = true → ∀ j, j < dev.sent.length → sendOk (env j) = true) := by
    intro env argv
    rw [Run_eq]
    have key : ∀ x : Bool × Dev,
        (∀ j, j < x.2.sent.length → sendOk (env j) = false
              → x.2.sent.length = j + 1 ∧ x.1 = false) →
        ∃ b dev, some x = some (b, dev)
          ∧ (∀ j, j < dev.sent.length → sendOk (env j) = false
                → dev.sent.length = j + 1 ∧ b = false)
          ∧ (b = true → ∀ j, j < dev.sent.length → sendOk (env j) = true) := by
      intro x hx
      refine ⟨x.1, x.2, rfl, hx, ?_⟩
      intro hb j hj
      by_contra hne
      have hf : sendOk (env j) = false := by simpa using hne
      have := (hx j hj hf).2
      rw [hb] at this
      exact Bool.noConfusion this
    cases henc : encode argv with
    | none =>
      apply key
      intro j hj
      simp [Dev.empty] at hj
    | some rs =>
      apply key
      obtain ⟨m, hm, hsent, hstop, _, _⟩ := sendAll_stop env rs Dev.empty
      intro j hj hfail
      simp only at hj ⊢
      have hlen : (sendAll env rs Dev.empty).2.sent.length = m := by
        rw [hsent]
        simp [Dev.empty, List.length_take, hm]
      rw [hlen] at hj ⊢
      have := hstop j hj (by simpa [Dev.empty] using hfail)
      exact ⟨this.1.symm, this.2⟩
  refine ⟨hgen, ?_⟩
  intro env h0 h1
  rw [Run_eq, encode_custom "omen_light" "front" "on" "breathing" "slow"
    ["255", "0", "0", "0", "255", "0", "0", "0", "255"] 1 1 1 3 (by decide) (by decide)
    (by decide) (by decide) (by decide) (by decide)]
  have hr : List.range' 0 3 = [0, 1, 2] := by decide
  simp only [hr, List.map_cons, List.map_nil, sendAll_cons, callSendReport_sent, Dev.empty,
    List.length_nil, List.nil_append, List.length_singleton, h0, h1, if_true]
  exact ⟨_, rfl, by simp [callSendReport_sent]⟩

/-- C8 at a transport whose write fails in the second call only. -/
theorem C8_stop_at_first_failure_witness :
    ∃ dev, Run (fun n => if n = 1 then ⟨false, false, true, false⟩ else HidOutcome.good)
              ["omen_light", "front", "on", "breathing", "slow", "custom",
               "255", "0", "0", "0", "255", "0", "0", "0", "255"]
            = some (false, dev)
      ∧ dev.sent.length = 2 :=
  C8_stop_at_first_failure.2 _ (by decide) (by decide)

/-- C9 as stated fails: the report of the accepted command `front on off` has
brightness 0, not 100. -/
theorem C9_off_brightness_counterexample :
    (Run goodEnv ["omen_light", "front", "on", "off"]).map
        (fun x => (x.1, x.2.sent.map Report.brightness)) = some (true, [0]) := by
  decide

/-- C9, amended: for every command line and every transport `Run` returns, and every
report it hands to `SendReport` carries the mode parsed from the mode token and has
brightness 100 when that mode is static or animated (anything but OFF); the report of
an off command has brightness 0. -/
theorem C9_brightness (env : Nat → HidOutcome) (argv : List String) :
    ∃ x, Run env argv = some x
      ∧ ∀ rep, rep ∈ x.2.sent →
          ParseMode (arg argv 3) 0 = (true, rep.mode)
            ∧ (rep.mode ≠ Mode.OFF → rep.brightness = 100)
            ∧ (rep.mode = Mode.OFF → rep.brightness = 0) := by
  obtain ⟨x, hx, hmem⟩ := Run_sent_mem env argv
  refine ⟨x, hx, ?_⟩
  intro rep hrep
  obtain ⟨rs, henc, hin⟩ := hmem rep hrep
  obtain ⟨_, _, hmode, _, _, hbr⟩ := encode_mem argv rs rep henc hin
  refine ⟨hmode, ?_, ?_⟩
  · intro hne
    rw [hbr, if_neg hne]
    rfl
  · intro he
    rw [hbr, if_pos he]

/-- C10: with a transport on which every send succeeds, for every argument list `Run`
either returns `false` having made no call of `SendReport` and no hidapi call at all,
or returns `true` having sent at least 1 and at most 4 reports. -/
theorem C10_reject_before_send (env : Nat → HidOutcome) (henv : ∀ n, sendOk (env n) = true)
    (argv : List String) :
    Run env argv = some (false, Dev.empty)
      ∨ ∃ dev, Run env argv = some (true, dev)
          ∧ 1 ≤ dev.sent.length ∧ dev.sent.length ≤ 4 := by
  cases henc : encode argv with
  | none => exact Or.inl (Run_reject env argv henc)
  | some rs =>
    obtain ⟨dev, hrun, hsent⟩ := Run_good env henv argv rs henc
    have hlen := encode_length argv rs henc
    exact Or.inr ⟨dev, hrun, by rw [hsent]; exact hlen⟩

/-- C10 at an accepted command with four colours. -/
theorem C10_reject_before_send_witness :
    Run goodEnv ["omen_light", "3", "suspend", "cycle", "medium", "custom",
                 "1", "2", "3", "4", "5", "6", "7", "8", "9", "10", "11", "12"]
        = some (false, Dev.empty)
      ∨ ∃ dev, Run goodEnv ["omen_light", "3", "suspend", "cycle", "medium", "custom",
                 "1", "2", "3", "4", "5", "6", "7", "8", "9", "10", "11", "12"]
            = some (true, dev)
          ∧ 1 ≤ dev.sent.length ∧ dev.sent.length ≤ 4 :=
  C10_reject_before_send goodEnv (fun _ => rfl) _

/-! ## The shape of the encoded reports -/

/-- The four kinds of accepted command line and the reports of each. -/
theorem encode_shape (argv : List String) (rs : List Report) (henc : encode argv = some rs) :
    4 ≤ argv.length ∧ ∃ led pw md,
      ParseLed (arg argv 1) 0 = (true, led) ∧ ParsePower (arg argv 2) 0 = (true, pw)
      ∧ ParseMode (arg argv 3) 0 = (true, md) ∧ 1 ≤ led ∧ led ≤ 8
      ∧ ((md = Mode.OFF ∧ rs = [offReport led pw])
        ∨ (md = Mode.STATIC ∧ (argv.drop 4).length = 3
            ∧ rs = [staticReport led pw (tripleAt (argv.drop 4) 0)])
        ∨ ((md = Mode.BREATHING ∨ md = Mode.CYCLE ∨ md = Mode.BLINKING)
            ∧ 2 ≤ (argv.drop 4).length
            ∧ ∃ sp th, ParseSpeed (arg (argv.drop 4) 0) 0 = (true, sp)
              ∧ ParseTheme (arg (argv.drop 4) 1) 0 = (true, th)
              ∧ ((th ≠ Theme.CUSTOM ∧ rs = [presetReport md led pw sp th])
                ∨ (th = Theme.CUSTOM ∧ ∃ k, 1 ≤ k ∧ k ≤ 4
                    ∧ ((argv.drop 4).drop 2).length = 3 * k
                    ∧ rs = (List.range' 0 k).map
                        (burstReport ((argv.drop 4).drop 2) (customBase md led pw sp k)))))) := by
  unfold encode at henc
  by_cases hlen : argv.length < 4
  · simp [hlen] at henc
  simp only [hlen, if_false] at henc
  refine ⟨by omega, ?_⟩
  have hmode := ParseMode_cases (arg argv 3) 0
  have hrange := ParseLed_range (arg argv 1) 0
  rcases hl : ParseLed (arg argv 1) 0 with ⟨lb, led⟩
  rcases hp : ParsePower (arg argv 2) 0 with ⟨pb, power⟩
  rcases hm : ParseMode (arg argv 3) 0 with ⟨mb, mode⟩
  simp only [hl, hp, hm] at henc hmode hrange
  cases lb
  · simp at henc
  cases pb
  · simp at henc
  cases mb
  · simp at henc
  have hrange := hrange rfl
  refine ⟨led, power, mode, rfl, rfl, rfl, hrange.1, hrange.2, ?_⟩
  generalize List.drop 4 argv = rest at henc ⊢
  generalize List.drop 2 rest = cols at henc ⊢
  rcases hs : ParseSpeed (arg rest 0) 0 with ⟨sb, speed⟩
  rcases ht : ParseTheme (arg rest 1) 0 with ⟨tb, theme⟩
  simp only [hs, ht] at henc
  have hsome : ∀ (a b : List Report), some a = some b → a = b := fun a b h => by simpa using h
  rcases hmode rfl with rfl | rfl | rfl | rfl | rfl
  · simp [Mode.OFF] at henc
    subst henc
    exact Or.inl ⟨rfl, rfl⟩
  · by_cases h3 : rest.length = 3
    · simp [Mode.OFF, Mode.STATIC, h3] at henc
      subst henc
      refine Or.inr (Or.inl ⟨rfl, h3, ?_⟩)
      simp [staticReport, storeColor, tripleAt, Report.zero, Mode.STATIC]
    · simp [Mode.OFF, Mode.STATIC, h3] at henc
  all_goals
    by_cases h2 : rest.length < 2
    · simp [Mode.OFF, Mode.STATIC, Mode.BREATHING, Mode.CYCLE, Mode.BLINKING, h2] at henc
    cases sb
    · simp [Mode.OFF, Mode.STATIC, Mode.BREATHING, Mode.CYCLE, Mode.BLINKING, h2] at henc
    cases tb
    · simp [Mode.OFF, Mode.STATIC, Mode.BREATHING, Mode.CYCLE, Mode.BLINKING, h2] at henc
    refine Or.inr (Or.inr ⟨by simp, by omega, speed, theme, rfl, rfl, ?_⟩)
    by_cases hc : theme = Theme.CUSTOM
    · by_cases har : cols.length ≠ 3 ∧ cols.length ≠ 6 ∧ cols.length ≠ 9 ∧ cols.length ≠ 12
      · simp [Mode.OFF, Mode.STATIC, Mode.BREATHING, Mode.CYCLE, Mode.BLINKING, h2, hc, har]
          at henc
      · simp only [Mode.OFF, Mode.STATIC, Mode.BREATHING, Mode.CYCLE, Mode.BLINKING, h2, hc, har,
          if_false, if_true, burst_eq_map] at henc
        simp only [Nat.reduceEqDiff, if_false, if_true, false_or, or_false, or_self,
          reduceCtorEq] at henc
        have henc := hsome _ _ henc
        subst henc
        refine Or.inr ⟨hc, cols.length / 3, by omega, by omega, by omega, ?_⟩
        have hk : cols.length / 3 % 256 = cols.length / 3 := by omega
        rw [hk]
        subst hc
        rfl
    · simp [Mode.OFF, Mode.STATIC, Mode.BREATHING, Mode.CYCLE, Mode.BLINKING, h2, hc] at henc
      subst henc
      exact Or.inl ⟨hc, rfl⟩

/-- For an accepted command line `Run` returns, and what it hands to `SendReport` is a
non-empty initial segment of the encoded reports. -/
theorem Run_sent_take (env : Nat → HidOutcome) (argv : List String) (rs : List Report)
    (henc : encode argv = some rs) :
    ∃ b dev m, Run env argv = some (b, dev) ∧ 1 ≤ m ∧ m ≤ rs.length
      ∧ dev.sent = rs.take m ∧ (b = true → m = rs.length) := by
  rw [Run_eq, henc]
  obtain ⟨m, hm, hsent, _, htrue, hfalse⟩ := sendAll_stop env rs Dev.empty
  have hlen := encode_length argv rs henc
  refine ⟨(sendAll env rs Dev.empty).1, (sendAll env rs Dev.empty).2, m, rfl, ?_, hm, ?_, htrue⟩
  · cases hb : (sendAll env rs Dev.empty).1
    · exact (hfalse hb).1
    · have := htrue hb
      omega
  · simpa [Dev.empty] using hsent

/-- A command line whose encoding is one report: `Run` hands it to `SendReport` and
returns what the call returns. -/
theorem Run_single (env : Nat → HidOutcome) (argv : List String) (r : Report)
    (henc : encode argv = some [r]) :
    Run env argv = some (sendOk (env 0), ⟨[r], (SendReport (env 0) r).2⟩) := by
  rw [Run_eq, henc]
  simp only [sendAll_single, callSendReport_empty]

/-! ## Off and static commands (C12, C16) -/

/-- The encoding of an off command, whatever follows the mode token. -/
theorem encode_off (a0 zone power : String) (trailing : List String) (led pw : Nat)
    (hz : ParseLed zone 0 = (true, led)) (hp : ParsePower power 0 = (true, pw)) :
    encode (a0 :: zone :: power :: "off" :: trailing) = some [offReport led pw] := by
  have hmode : ParseMode "off" 0 = (true, Mode.OFF) := by decide
  simp [encode, arg, hz, hp, hmode, offReport]

/-- C12: for every zone token and power token the parsers accept, the command
`zone power off` (also when more tokens follow) makes `Run` hand exactly one report to
`SendReport` and return what that call returns; the report has mode OFF (byte 5),
type OFF (byte 0), custom_color_count 0, custom_color_id 0 and all eight colour slots
zero. -/
theorem C12_off_report (env : Nat → HidOutcome) (a0 zone power : String)
    (trailing : List String) (led pw : Nat)
    (hz : ParseLed zone 0 = (true, led)) (hp : ParsePower power 0 = (true, pw)) :
    ∃ dev rep,
      Run env (a0 :: zone :: power :: "off" :: trailing) = some (sendOk (env 0), dev)
        ∧ dev.sent = [rep]
        ∧ rep.mode = Mode.OFF ∧ Mode.OFF = 5
        ∧ rep.type = Type.OFF ∧ Type.OFF = 0
        ∧ rep.custom_color_count = 0 ∧ rep.custom_color_id = 0
        ∧ rep.colors = List.replicate 8 ⟨0, 0, 0⟩ := by
  refine ⟨_, offReport led pw,
    Run_single env _ _ (encode_off a0 zone power trailing led pw hz hp),
    rfl, rfl, rfl, rfl, rfl, rfl, rfl, rfl⟩

/-- C12 at `chase suspend off`. -/
theorem C12_off_report_witness :
    ∃ dev rep,
      Run goodEnv ("omen_light" :: "chase" :: "suspend" :: "off" :: []) = some (sendOk (goodEnv 0), dev)
        ∧ dev.sent = [rep]
        ∧ rep.mode = Mode.OFF ∧ Mode.OFF = 5
        ∧ rep.type = Type.OFF ∧ Type.OFF = 0
        ∧ rep.custom_color_count = 0 ∧ rep.custom_color_id = 0
        ∧ rep.colors = List.replicate 8 ⟨0, 0, 0⟩ :=
  C12_off_report goodEnv "omen_light" "chase" "suspend" [] 2 2 (by decide) (by decide)

/-- C16: for static mode with zone and power tokens the parsers accept, `Run` hands a
report to `SendReport` (exactly one) if exactly 3 tokens follow the mode token, and
with fewer or more than 3 it returns `false` and sends nothing; so a report is sent if
and only if exactly 3 tokens follow. -/
theorem C16_static_arity (env : Nat → HidOutcome) (a0 zone power : String)
    (rest : List String) (led pw : Nat)
    (hz : ParseLed zone 0 = (true, led)) (hp : ParsePower power 0 = (true, pw)) :
    (rest.length = 3 →
        ∃ dev rep, Run env (a0 :: zone :: power :: "static" :: rest)
            = some (sendOk (env 0), dev) ∧ dev.sent = [rep])
      ∧ (rest.length ≠ 3 →
        Run env (a0 :: zone :: power :: "static" :: rest) = some (false, Dev.empty))
      ∧ ((∃ b dev, Run env (a0 :: zone :: power :: "static" :: rest) = some (b, dev)
            ∧ dev.sent ≠ []) ↔ rest.length = 3) := by
  have hmode : ParseMode "static" 0 = (true, Mode.STATIC) := by decide
  have hyes : rest.length = 3 →
      ∃ dev rep, Run env (a0 :: zone :: power :: "static" :: rest)
          = some (sendOk (env 0), dev) ∧ dev.sent = [rep] := by
    intro h3
    have henc : encode (a0 :: zone :: power :: "static" :: rest)
        = some [staticReport led pw (tripleAt rest 0)] := by
      simp [encode, arg, hz, hp, hmode, Mode.STATIC, Mode.OFF, h3, staticReport, storeColor,
        tripleAt, Report.zero]
    exact ⟨_, _, Run_single env _ _ henc, rfl⟩
  have hno : rest.length ≠ 3 →
      Run env (a0 :: zone :: power :: "static" :: rest) = some (false, Dev.empty) := by
    intro h3
    apply Run_reject
    simp [encode, arg, hz, hp, hmode, Mode.STATIC, Mode.OFF, h3]
  refine ⟨hyes, hno, ?_, ?_⟩
  · rintro ⟨b, dev, hrun, hne⟩
    by_contra h3
    rw [hno h3] at hrun
    simp only [Option.some.injEq, Prod.mk.injEq] at hrun
    rw [← hrun.2] at hne
    exact hne rfl
  · intro h3
    obtain ⟨dev, rep, hrun, hsent⟩ := hyes h3
    exact ⟨_, dev, hrun, by simp [hsent]⟩

/-- C16 at zone 4, power on, with three and with four tokens after `static`. -/
theorem C16_static_arity_witness :
    (∃ dev rep, Run goodEnv ("omen_light" :: "4" :: "on" :: "static" :: ["0", "255", "0"])
          = some (sendOk (goodEnv 0), dev) ∧ dev.sent = [rep])
      ∧ Run goodEnv ("omen_light" :: "4" :: "on" :: "static" :: ["0", "255", "0", "7"])
          = some (false, Dev.empty) :=
  ⟨(C16_static_arity goodEnv "omen_light" "4" "on" ["0", "255", "0"] 4 1
      (by decide) (by decide)).1 (by decide),
   (C16_static_arity goodEnv "omen_light" "4" "on" ["0", "255", "0", "7"] 4 1
      (by decide) (by decide)).2.1 (by decide)⟩

/-! ## Fields of every report (C13) -/

theorem ParsePower_cases (a : String) (p pw : Nat) (h : ParsePower a p = (true, pw)) :
    (a = "on" ∧ pw = 1) ∨ (a = "suspend" ∧ pw = 2) := by
  unfold ParsePower at h
  split_ifs at h with h1 h2
  · exact Or.inl ⟨h1, by simpa [Power.ON] using (congrArg Prod.snd h).symm⟩
  · exact Or.inr ⟨h2, by simpa [Power.SUSPEND] using (congrArg Prod.snd h).symm⟩
  · simp at h

/-- C13: for every command line and every transport `Run` returns, and every report it
hands to `SendReport`, in every mode, has report_id 0, version 0x12, led equal to the
zone index `ParseLed` yields for the first token, and power equal to the value
`ParsePower` yields for the second token: 1 for `on`, 2 for `suspend`. -/
theorem C13_fixed_fields (env : Nat → HidOutcome) (argv : List String) :
    ∃ x, Run env argv = some x
      ∧ ∀ rep, rep ∈ x.2.sent →
          rep.report_id = 0 ∧ rep.version = 0x12
            ∧ ParseLed (arg argv 1) 0 = (true, rep.led)
            ∧ ParsePower (arg argv 2) 0 = (true, rep.power)
            ∧ ((arg argv 2 = "on" ∧ rep.power = 1)
                ∨ (arg argv 2 = "suspend" ∧ rep.power = 2)) := by
  obtain ⟨x, hx, hmem⟩ := Run_sent_mem env argv
  refine ⟨x, hx, ?_⟩
  intro rep hrep
  obtain ⟨rs, henc, hin⟩ := hmem rep hrep
  obtain ⟨hl, hp, _, hid, hver, _⟩ := encode_mem argv rs rep henc hin
  exact ⟨hid, hver, hl, hp, ParsePower_cases _ _ _ hp⟩

/-! ## The transport (C17) -/

/-- C17, evaluated on the failing path: when `hid_init` and `hid_open` succeed and
`hid_write` fails, `SendReport` returns `false` after the calls `hid_init`, `hid_open`,
`hid_write` only; the opened handle is not closed (no `hid_close`), although the
path on which the write succeeds does call `hid_close`. -/
theorem C17_write_failure_leaves_handle_open (r : Report) :
    SendReport ⟨false, false, true, false⟩ r
        = (false, [.hid_init, .hid_open VENDOR_ID PRODUCT_ID, .hid_write r.bytes])
      ∧ HidCall.hid_open VENDOR_ID PRODUCT_ID ∈ (SendReport ⟨false, false, true, false⟩ r).2
      ∧ HidCall.hid_close ∉ (SendReport ⟨false, false, true, false⟩ r).2
      ∧ HidCall.hid_close ∈ (SendReport HidOutcome.good r).2 := by
  simp [SendReport, HidOutcome.good]

/-! ## Bounds of the colour index (C20) -/

/-- C20: every zone token `ParseLed` accepts yields a led with 1 <= led <= 8, also
when the integer value was narrowed to 8 bits before the range check (the token 257
yields 1); `ParseColor` is defined exactly when 1 <= led <= 8, that is when `led - 1`
is an index of the 8-element colour array; and `Run` is defined for every command line
and every transport, so no call of `ParseColor` made by `Run` has its index outside
0..7, and every report `Run` sends has 1 <= led <= 8. -/
theorem C20_color_index_in_bounds :
    (∀ (a : String) (l : Nat), (ParseLed a l).1 = true →
        1 ≤ (ParseLed a l).2 ∧ (ParseLed a l).2 ≤ 8 ∧ (ParseLed a l).2 - 1 < 8)
      ∧ ParseLed "257" 0 = (true, 1)
      ∧ (∀ (argv : List String) (report : Report),
          ParseColor argv report = none ↔ ¬ (1 ≤ report.led ∧ report.led ≤ 8))
      ∧ (∀ (env : Nat → HidOutcome) (argv : List String),
          Run env argv ≠ none
            ∧ ∃ x, Run env argv = some x
                ∧ ∀ rep, rep ∈ x.2.sent → 1 ≤ rep.led ∧ rep.led ≤ 8) := by
  refine ⟨?_, by decide, ?_, ?_⟩
  · intro a l h
    have := ParseLed_range a l h
    omega
  · intro argv report
    unfold ParseColor
    simp only [N_LEDS]
    split_ifs with h
    · simp [h]
    · simp [h]
  · intro env argv
    refine ⟨by rw [Run_eq]; simp, ?_⟩
    obtain ⟨x, hx, hmem⟩ := Run_sent_mem env argv
    refine ⟨x, hx, ?_⟩
    intro rep hrep
    obtain ⟨rs, henc, hin⟩ := hmem rep hrep
    have hl := (encode_mem argv rs rep henc hin).1
    have := ParseLed_range (arg argv 1) 0 (by rw [hl])
    rw [hl] at this
    exact this

/-! ## Speed and theme validation (C15) -/

theorem ParseSpeed_cases (a : String) (s sp : Nat) (h : ParseSpeed a s = (true, sp)) :
    (a, sp) ∈ speedTokens := by
  unfold ParseSpeed at h
  split_ifs at h with h1 h2 h3
  · have := (congrArg Prod.snd h).symm
    simp only [Speed.SLOW] at this
    subst this; subst h1; decide
  · have := (congrArg Prod.snd h).symm
    simp only [Speed.MEDIUM] at this
    subst this; subst h2; decide
  · have := (congrArg Prod.snd h).symm
    simp only [Speed.FAST] at this
    subst this; subst h3; decide
  · simp at h

theorem ParseTheme_cases (a : String) (t th : Nat) (h : ParseTheme a t = (true, th)) :
    (a, th) ∈ themeTokens := by
  unfold ParseTheme at h
  split_ifs at h with h1 h2 h3 h4 h5
  · have := (congrArg Prod.snd h).symm
    simp only [Theme.CUSTOM] at this
    subst this; subst h1; decide
  · have := (congrArg Prod.snd h).symm
    simp only [Theme.GALAXY] at this
    subst this; subst h2; decide
  · have := (congrArg Prod.snd h).symm
    simp only [Theme.VOLCANO] at this
    subst this; subst h3; decide
  · have := (congrArg Prod.snd h).symm
    simp only [Theme.JUNGO] at this
    subst this; subst h4; decide
  · have := (congrArg Prod.snd h).symm
    simp only [Theme.OCEAN] at this
    subst this; subst h5; decide
  · simp at h

theorem ParseSpeed_reject (a : String) (h : ∀ sp, (a, sp) ∉ speedTokens) :
    (ParseSpeed a 0).1 = false := by
  cases hb : (ParseSpeed a 0).1
  · rfl
  · exact absurd (ParseSpeed_cases a 0 (ParseSpeed a 0).2 (by rw [← hb])) (h _)

theorem ParseTheme_reject (a : String) (h : ∀ th, (a, th) ∉ themeTokens) :
    (ParseTheme a 0).1 = false := by
  cases hb : (ParseTheme a 0).1
  · rfl
  · exact absurd (ParseTheme_cases a 0 (ParseTheme a 0).2 (by rw [← hb])) (h _)

/-- Every report of an animated command carries the parsed speed and theme. -/
theorem encode_mem_anim (argv : List String) (rs : List Report) (r : Report)
    (henc : encode argv = some rs) (hr : r ∈ rs)
    (hm : (ParseMode (arg argv 3) 0).2 ≠ Mode.OFF ∧ (ParseMode (arg argv 3) 0).2 ≠ Mode.STATIC) :
    ParseSpeed (arg (argv.drop 4) 0) 0 = (true, r.speed)
      ∧ ParseTheme (arg (argv.drop 4) 1) 0 = (true, r.theme) := by
  obtain ⟨_, led, pw, md, _, _, hmd, _, _, hcase⟩ := encode_shape argv rs henc
  rw [hmd] at hm
  rcases hcase with ⟨h, _⟩ | ⟨h, _⟩ | ⟨_, _, sp, th, hs, ht, hrs⟩
  · exact absurd h hm.1
  · exact absurd h hm.2
  · rcases hrs with ⟨_, rfl⟩ | ⟨hc, k, _, _, _, rfl⟩
    · simp only [List.mem_singleton] at hr
      subst hr
      exact ⟨hs, ht⟩
    · simp only [List.mem_map] at hr
      obtain ⟨j, _, rfl⟩ := hr
      rw [hc] at ht
      exact ⟨hs, ht⟩

/-- C15: for every animated mode, whatever the zone and power tokens and the
transport, `Run` returns `false` with nothing handed to `SendReport` when fewer than 2
tokens follow the mode, when the speed token is not one of `slow`, `medium`, `fast`,
and when the theme token is not one of `custom`, `galaxy`, `volcano`, `jungo`, `ocean`;
and in every report `Run` does send, the speed byte is 1, 2, 3 for `slow`, `medium`,
`fast` and the theme byte is 0, 1, 2, 3, 4 for `custom`, `galaxy`, `volcano`, `jungo`,
`ocean`. -/
theorem C15_animated_validation (env : Nat → HidOutcome) (a0 zone power mode : String)
    (hm : mode = "breathing" ∨ mode = "cycle" ∨ mode = "blinking") :
    (∀ rest : List String, rest.length < 2 →
        Run env (a0 :: zone :: power :: mode :: rest) = some (false, Dev.empty))
      ∧ (∀ (speed theme : String) (rest : List String),
          (∀ sp, (speed, sp) ∉ speedTokens) →
          Run env (a0 :: zone :: power :: mode :: speed :: theme :: rest)
            = some (false, Dev.empty))
      ∧ (∀ (speed theme : String) (rest : List String),
          (∀ th, (theme, th) ∉ themeTokens) →
          Run env (a0 :: zone :: power :: mode :: speed :: theme :: rest)
            = some (false, Dev.empty))
      ∧ (∀ (speed theme : String) (rest : List String),
          ∃ x, Run env (a0 :: zone :: power :: mode :: speed :: theme :: rest) = some x
            ∧ ∀ rep, rep ∈ x.2.sent →
                (speed, rep.speed) ∈ speedTokens ∧ (theme, rep.theme) ∈ themeTokens) := by
  obtain ⟨hm1, hm2, hm3⟩ := ParseMode_animated mode hm
  refine ⟨?_, ?_, ?_, ?_⟩
  · intro rest hlen
    apply Run_reject
    unfold encode
    simp only [arg, List.length_cons, List.getD_cons_succ, List.getD_cons_zero,
      List.drop_succ_cons, List.drop_zero, hm1, hm2, hm3, hlen]
    simp
  · intro speed theme rest hs
    apply Run_reject
    have hsp := ParseSpeed_reject speed hs
    unfold encode
    simp only [arg, List.length_cons, List.getD_cons_succ, List.getD_cons_zero,
      List.drop_succ_cons, List.drop_zero, hm1, hm2, hm3, hsp]
    simp
  · intro speed theme rest ht
    apply Run_reject
    have hth := ParseTheme_reject theme ht
    unfold encode
    simp only [arg, List.length_cons, List.getD_cons_succ, List.getD_cons_zero,
      List.drop_succ_cons, List.drop_zero, hm1, hm2, hm3, hth]
    simp
  · intro speed theme rest
    obtain ⟨x, hx, hmem⟩ := Run_sent_mem env (a0 :: zone :: power :: mode :: speed :: theme :: rest)
    refine ⟨x, hx, ?_⟩
    intro rep hrep
    obtain ⟨rs, henc, hin⟩ := hmem rep hrep
    have h := encode_mem_anim _ rs rep henc hin
      (by simpa [arg] using ⟨hm2, hm3⟩)
    simp only [arg, List.drop_succ_cons, List.drop_zero, List.getD_cons_succ,
      List.getD_cons_zero] at h
    exact ⟨ParseSpeed_cases _ _ _ h.1, ParseTheme_cases _ _ _ h.2⟩

/-- C15 at mode `blinking`. -/
theorem C15_animated_validation_witness :
    (∀ rest : List String, rest.length < 2 →
        Run goodEnv ("omen_light" :: "front" :: "on" :: "blinking" :: rest)
          = some (false, Dev.empty))
      ∧ (∀ (speed theme : String) (rest : List String),
          (∀ sp, (speed, sp) ∉ speedTokens) →
          Run goodEnv ("omen_light" :: "front" :: "on" :: "blinking" :: speed :: theme :: rest)
            = some (false, Dev.empty))
      ∧ (∀ (speed theme : String) (rest : List String),
          (∀ th, (theme, th) ∉ themeTokens) →
          Run goodEnv ("omen_light" :: "front" :: "on" :: "blinking" :: speed :: theme :: rest)
            = some (false, Dev.empty))
      ∧ (∀ (speed theme : String) (rest : List String),
          ∃ x, Run goodEnv ("omen_light" :: "front" :: "on" :: "blinking" :: speed :: theme :: rest)
              = some x
            ∧ ∀ rep, rep ∈ x.2.sent →
                (speed, rep.speed) ∈ speedTokens ∧ (theme, rep.theme) ∈ themeTokens) :=
  C15_animated_validation goodEnv "omen_light" "front" "on" "blinking" (by decide)

/-! ## The colour slot (C19) -/

theorem onlySlot_set (led : Nat) (c : Color) (h : 1 ≤ led ∧ led ≤ 8) :
    onlySlot ((List.replicate 8 (⟨0, 0, 0⟩ : Color)).set (led - 1) c) (led - 1) c :=
  ⟨by simp, by omega, replicate_set_self 8 (led - 1) _ _ (by omega),
    fun j hj hne => replicate_set_other 8 (led - 1) j _ _ hj hne⟩

/-- C19: for every command line and every transport `Run` returns, and for the report
at every position `i` (0-indexed) of what it hands to `SendReport`: if the command is
static, the colour array holds the triple of the three tokens after the mode in slot
`led - 1` and zero in the seven other slots; if the command is animated with theme
custom, the colour array holds triple `i` of the tokens after the theme in slot
`led - 1`, the same slot for every report of the burst, and zero in the seven other
slots. -/
theorem C19_colour_slot (env : Nat → HidOutcome) (argv : List String) :
    ∃ x, Run env argv = some x
      ∧ ∀ i rep, x.2.sent[i]? = some rep →
          ParseLed (arg argv 1) 0 = (true, rep.led)
          ∧ (rep.mode = Mode.STATIC →
              onlySlot rep.colors (rep.led - 1) (tripleAt (argv.drop 4) 0))
          ∧ ((rep.mode = Mode.BREATHING ∨ rep.mode = Mode.CYCLE ∨ rep.mode = Mode.BLINKING) →
              rep.theme = Theme.CUSTOM →
              onlySlot rep.colors (rep.led - 1) (tripleAt (argv.drop 6) i)) := by
  cases henc : encode argv with
  | none =>
    refine ⟨_, Run_reject env argv henc, ?_⟩
    intro i rep h
    simp [Dev.empty] at h
  | some rs =>
    obtain ⟨b, dev, m, hrun, _, _, hsent, _⟩ := Run_sent_take env argv rs henc
    refine ⟨_, hrun, ?_⟩
    intro i rep hget
    simp only [hsent] at hget
    have hget2 : rs[i]? = some rep := by
      rw [List.getElem?_take] at hget
      split_ifs at hget
      · exact hget
    obtain ⟨_, led, pw, md, hl, _, _, h1, h8, hcase⟩ := encode_shape argv rs henc
    rcases hcase with ⟨_, rfl⟩ | ⟨_, _, rfl⟩ | ⟨hmd, _, sp, th, _, _, hrs⟩
    · have : rep = offReport led pw := by
        cases i with
        | zero => simpa using hget2.symm
        | succ i => simp at hget2
      subst this
      refine ⟨hl, ?_, ?_⟩
      · intro h; simp [offReport, Mode.OFF, Mode.STATIC] at h
      · intro h; simp [offReport, Mode.OFF, Mode.BREATHING, Mode.CYCLE, Mode.BLINKING] at h
    · have : rep = staticReport led pw (tripleAt (argv.drop 4) 0) := by
        cases i with
        | zero => simpa using hget2.symm
        | succ i => simp at hget2
      subst this
      refine ⟨hl, ?_, ?_⟩
      · intro _
        exact onlySlot_set led _ ⟨h1, h8⟩
      · intro h
        simp [staticReport, Mode.STATIC, Mode.BREATHING, Mode.CYCLE, Mode.BLINKING] at h
    · rcases hrs with ⟨hne, rfl⟩ | ⟨_, k, _, _, _, rfl⟩
      · have : rep = presetReport md led pw sp th := by
          cases i with
          | zero => simpa using hget2.symm
          | succ i => simp at hget2
        subst this
        refine ⟨hl, ?_, ?_⟩
        · intro h
          have h' : md = Mode.STATIC := h
          rcases hmd with rfl | rfl | rfl <;>
            simp [Mode.STATIC, Mode.BREATHING, Mode.CYCLE, Mode.BLINKING] at h'
        · intro _ hth
          exact absurd hth hne
      · have hrep : rep = burstReport (List.drop 2 (List.drop 4 argv))
            (customBase md led pw sp k) i := by
          simp only [List.getElem?_map, Option.map_eq_some'] at hget2
          obtain ⟨j, hj, rfl⟩ := hget2
          have hji := (List.getElem?_eq_some_iff.mp hj).2
          simp only [List.getElem_range', Nat.zero_add, Nat.one_mul] at hji
          rw [hji]
        subst hrep
        refine ⟨hl, ?_, ?_⟩
        · intro h
          have h' : md = Mode.STATIC := h
          rcases hmd with rfl | rfl | rfl <;>
            simp [Mode.STATIC, Mode.BREATHING, Mode.CYCLE, Mode.BLINKING] at h'
        · intro _ _
          have hd : List.drop 2 (List.drop 4 argv) = List.drop 6 argv := by
            rw [List.drop_drop]
          rw [hd]
          exact onlySlot_set led _ ⟨h1, h8⟩

/-! ## The wire layout (C18) -/

theorem colorBytes_length (cs : List Color) :
    ((cs.map Color.bytes).flatten).length = 3 * cs.length := by
  induction cs with
  | nil => rfl
  | cons c cs ih =>
    simp only [List.map_cons, List.flatten_cons, List.length_append, ih, List.length_cons,
      Color.bytes, List.length_nil]
    omega

theorem colorBytes_at (cs : List Color) :
    ∀ (i : Nat) (c : Color), cs[i]? = some c →
      (((cs.map Color.bytes).flatten).drop (3 * i)).take 3 = [c.r, c.g, c.b] := by
  induction cs with
  | nil => intro i c h; simp at h
  | cons d cs ih =>
    intro i c h
    cases i with
    | zero =>
      simp only [List.getElem?_cons_zero, Option.some.injEq] at h
      subst h
      simp [Color.bytes]
    | succ i =>
      simp only [List.getElem?_cons_succ] at h
      have := ih i c h
      have h3 : 3 * (i + 1) = 3 * i + 3 := by omega
      simpa [Color.bytes, h3, ← List.drop_drop] using this

/-- The segments of the byte serialisation, by offset. -/
theorem bytes_layout (p : Report) (h : p.wellSized) :
    p.bytes.length = 58
      ∧ p.bytes.take 6 = [p.report_id, p.reserved, p.version, p.mode,
                          p.custom_color_count, p.custom_color_id]
      ∧ (p.bytes.drop 6).take 2 = p.reserved2
      ∧ (p.bytes.drop 8).take 24 = (p.colors.map Color.bytes).flatten
      ∧ (p.bytes.drop 32).take 16 = p.reserved3
      ∧ (p.bytes.drop 48).take 2 = [p.brightness, p.type]
      ∧ (p.bytes.drop 50).take 4 = p.reserved4
      ∧ p.bytes.drop 54 = [p.led, p.power, p.theme, p.speed] := by
  obtain ⟨h2, hc, h3, h4⟩ := h
  simp only [N_LEDS] at hc h3
  have hcb := colorBytes_length p.colors
  rw [hc] at hcb
  generalize hC : (p.colors.map Color.bytes).flatten = C at hcb
  have hb : p.bytes = [p.report_id, p.reserved, p.version, p.mode,
      p.custom_color_count, p.custom_color_id] ++ (p.reserved2 ++ (C ++ (p.reserved3
        ++ ([p.brightness, p.type] ++ (p.reserved4 ++ [p.led, p.power, p.theme, p.speed]))))) := by
    simp [Report.bytes, hC]
  have d6 : p.bytes.drop 6 = p.reserved2 ++ (C ++ (p.reserved3
        ++ ([p.brightness, p.type] ++ (p.reserved4 ++ [p.led, p.power, p.theme, p.speed])))) := by
    rw [hb]; exact List.drop_left' rfl
  have d8 : p.bytes.drop 8 = C ++ (p.reserved3
        ++ ([p.brightness, p.type] ++ (p.reserved4 ++ [p.led, p.power, p.theme, p.speed]))) := by
    have : p.bytes.drop 8 = (p.bytes.drop 6).drop 2 := by rw [List.drop_drop]
    rw [this, d6]; exact List.drop_left' h2
  have d32 : p.bytes.drop 32 = p.reserved3
        ++ ([p.brightness, p.type] ++ (p.reserved4 ++ [p.led, p.power, p.theme, p.speed])) := by
    have : p.bytes.drop 32 = (p.bytes.drop 8).drop 24 := by rw [List.drop_drop]
    rw [this, d8]; exact List.drop_left' hcb
  have d48 : p.bytes.drop 48
      = [p.brightness, p.type] ++ (p.reserved4 ++ [p.led, p.power, p.theme, p.speed]) := by
    have : p.bytes.drop 48 = (p.bytes.drop 32).drop 16 := by rw [List.drop_drop]
    rw [this, d32]; exact List.drop_left' h3
  have d50 : p.bytes.drop 50 = p.reserved4 ++ [p.led, p.power, p.theme, p.speed] := by
    have : p.bytes.drop 50 = (p.bytes.drop 48).drop 2 := by rw [List.drop_drop]
    rw [this, d48]; exact List.drop_left' rfl
  have d54 : p.bytes.drop 54 = [p.led, p.power, p.theme, p.speed] := by
    have : p.bytes.drop 54 = (p.bytes.drop 50).drop 4 := by rw [List.drop_drop]
    rw [this, d50]; exact List.drop_left' h4
  refine ⟨?_, ?_, ?_, ?_, ?_, ?_, ?_, d54⟩
  · rw [hb]
    simp only [List.length_append, List.length_cons, List.length_nil, h2, hcb, h3, h4]
  · rw [hb]; exact List.take_left' rfl
  · rw [d6]; exact List.take_left' h2
  · rw [d8]; exact List.take_left' hcb
  · rw [d32]; exact List.take_left' h3
  · rw [d48]; exact List.take_left' rfl
  · rw [d50]; exact List.take_left' h4

/-- Every report `Run` builds has its arrays at their declared sizes and zero in every
reserved and padding byte. -/
theorem encode_mem_reserved (argv : List String) (rs : List Report) (r : Report)
    (henc : encode argv = some rs) (hr : r ∈ rs) :
    r.wellSized ∧ r.reserved = 0 ∧ r.reserved2 = [0, 0]
      ∧ r.reserved3 = List.replicate 16 0 ∧ r.reserved4 = [0, 0, 0, 0] := by
  obtain ⟨_, led, pw, md, _, _, _, _, _, hcase⟩ := encode_shape argv rs henc
  rcases hcase with ⟨_, rfl⟩ | ⟨_, _, rfl⟩ | ⟨_, _, sp, th, _, _, hrs⟩
  · simp only [List.mem_singleton] at hr
    subst hr
    simp [Report.wellSized, offReport, Report.zero, N_LEDS]
  · simp only [List.mem_singleton] at hr
    subst hr
    simp [Report.wellSized, staticReport, Report.zero, N_LEDS]
  · rcases hrs with ⟨_, rfl⟩ | ⟨_, k, _, _, _, rfl⟩
    · simp only [List.mem_singleton] at hr
      subst hr
      simp [Report.wellSized, presetReport, Report.zero, N_LEDS]
    · simp only [List.mem_map] at hr
      obtain ⟨j, _, rfl⟩ := hr
      simp [Report.wellSized, burstReport, customBase, Report.zero, N_LEDS]

/-- C18: the byte serialisation of every report (with its arrays at their declared
sizes) has exactly 58 bytes, with report_id, reserved, version, mode,
custom_color_count, custom_color_id at offsets 0..5, two reserved bytes at 6..7, the
colour block at 8..31 with the r, g, b of colour i at 8 + 3 i, 16 padding bytes at
32..47, brightness at 48, type at 49, four reserved bytes at 50..53, and led, power,
theme, speed at 54..57; these are the bytes `SendReport` passes to `hid_write`; and in
every report `Run` hands to `SendReport` every reserved and padding byte is 0. -/
theorem C18_wire_layout :
    (∀ p : Report, p.wellSized →
        p.bytes.length = 58
          ∧ p.bytes.take 6 = [p.report_id, p.reserved, p.version, p.mode,
                              p.custom_color_count, p.custom_color_id]
          ∧ (p.bytes.drop 6).take 2 = p.reserved2
          ∧ (p.bytes.drop 8).take 24 = (p.colors.map Color.bytes).flatten
          ∧ (∀ (i : Nat) (c : Color), p.colors[i]? = some c →
              (p.bytes.drop (8 + 3 * i)).take 3 = [c.r, c.g, c.b])
          ∧ (p.bytes.drop 32).take 16 = p.reserved3
          ∧ (p.bytes.drop 48).take 2 = [p.brightness, p.type]
          ∧ (p.bytes.drop 50).take 4 = p.reserved4
          ∧ p.bytes.drop 54 = [p.led, p.power, p.theme, p.speed])
      ∧ (∀ (o : HidOutcome) (r : Report) (d : List Nat),
          HidCall.hid_write d ∈ (SendReport o r).2 → d = r.bytes)
      ∧ (∀ (env : Nat → HidOutcome) (argv : List String),
          ∃ x, Run env argv = some x
            ∧ ∀ rep, rep ∈ x.2.sent →
                rep.wellSized ∧ rep.reserved = 0 ∧ rep.reserved2 = [0, 0]
                  ∧ rep.reserved3 = List.replicate 16 0 ∧ rep.reserved4 = [0, 0, 0, 0]) := by
  refine ⟨?_, ?_, ?_⟩
  · intro p hp
    obtain ⟨hlen, h0, h6, h8, h32, h48, h50, h54⟩ := bytes_layout p hp
    refine ⟨hlen, h0, h6, h8, ?_, h32, h48, h50, h54⟩
    intro i c hc
    have hi : i < 8 := by
      have := (List.getElem?_eq_some_iff.mp hc).1
      rw [hp.2.1] at this
      exact this
    have := colorBytes_at p.colors i c hc
    rw [← h8, List.drop_take, List.take_take, List.drop_drop] at this
    have hmin : min 3 (24 - 3 * i) = 3 := by omega
    rw [hmin] at this
    exact this
  · intro o r d hd
    unfold SendReport at hd
    split_ifs at hd <;> simp at hd <;> exact hd
  · intro env argv
    obtain ⟨x, hx, hmem⟩ := Run_sent_mem env argv
    refine ⟨x, hx, ?_⟩
    intro rep hrep
    obtain ⟨rs, henc, hin⟩ := hmem rep hrep
    exact encode_mem_reserved argv rs rep henc hin

/-- C18 at the zero report: 58 bytes, the last four being led, power, theme, speed. -/
theorem C18_wire_layout_witness :
    Report.zero.bytes.length = 58
      ∧ Report.zero.bytes.drop 54
          = [Report.zero.led, Report.zero.power, Report.zero.theme, Report.zero.speed] :=
  ⟨(C18_wire_layout.1 Report.zero ⟨rfl, rfl, rfl, rfl⟩).1,
   (C18_wire_layout.1 Report.zero ⟨rfl, rfl, rfl, rfl⟩).2.2.2.2.2.2.2.2⟩

/-! ## Colour channels (C14) -/

theorem digitChar_facts : ∀ d, d < 10 →
    isdigit (Nat.digitChar d) = true ∧ (Nat.digitChar d).toNat - 48 = d := by
  decide

theorem isdigit_not_space_sign (c : Char) (h : isdigit c = true) :
    isspace c = false ∧ c.toNat ≠ 45 ∧ c.toNat ≠ 43 := by
  simp only [isdigit, Bool.and_eq_true, decide_eq_true_eq] at h
  simp only [isspace, Bool.or_eq_false_iff, decide_eq_false_iff_not, Bool.and_eq_false_imp,
    decide_eq_true_eq]
  omega

/-- Reading back the digits `Nat.toDigitsCore` writes in front of `ds`. -/
theorem readDigits_toDigitsCore (fuel : Nat) :
    ∀ (n : Nat) (ds : List Char), n < fuel →
      readDigits (Nat.toDigitsCore 10 fuel n ds) none = readDigits ds (some n) := by
  induction fuel with
  | zero => intro n ds h; omega
  | succ fuel ih =>
    intro n ds h
    obtain ⟨hd, hv⟩ := digitChar_facts (n % 10) (Nat.mod_lt _ (by omega))
    unfold Nat.toDigitsCore
    by_cases h0 : n / 10 = 0
    · simp only [h0, if_true]
      have hn : n % 10 = n := by omega
      rw [readDigits, if_pos hd, hv, hn]
      simp
    · simp only [h0, if_false]
      rw [ih (n / 10) _ (by omega), readDigits, if_pos hd, hv]
      have : (some (n / 10)).getD 0 * 10 + n % 10 = n := by
        simp only [Option.getD_some]
        omega
      rw [this]

theorem toDigitsCore_head (fuel : Nat) :
    ∀ (n : Nat) (ds : List Char), n < fuel →
      ∃ c cs, Nat.toDigitsCore 10 fuel n ds = c :: cs ∧ isdigit c = true := by
  induction fuel with
  | zero => intro n ds h; omega
  | succ fuel ih =>
    intro n ds h
    obtain ⟨hd, _⟩ := digitChar_facts (n % 10) (Nat.mod_lt _ (by omega))
    unfold Nat.toDigitsCore
    by_cases h0 : n / 10 = 0
    · simp only [h0, if_true]
      exact ⟨_, _, rfl, hd⟩
    · simp only [h0, if_false]
      exact ih (n / 10) _ (by omega)

theorem readDigits_nil_some (n : Nat) : readDigits [] (some n) = some n := rfl

theorem strtolValue_digits (n : Nat) : strtolValue (Nat.toDigits 10 n) = some (n : Int) := by
  obtain ⟨c, cs, hc, hd⟩ := toDigitsCore_head (n + 1) n [] (by omega)
  have hr := readDigits_toDigitsCore (n + 1) n [] (by omega)
  obtain ⟨hs, h45, h43⟩ := isdigit_not_space_sign c hd
  unfold Nat.toDigits
  rw [hc] at hr ⊢
  unfold strtolValue
  rw [List.dropWhile_cons_of_neg (by simp [hs])]
  simp only [h45, h43, if_false, hr, readDigits_nil_some]
  rfl

theorem strtolValue_neg_digits (n : Nat) :
    strtolValue ((Char.ofNat 45) :: Nat.toDigits 10 n) = some (-(n : Int)) := by
  have hr := readDigits_toDigitsCore (n + 1) n [] (by omega)
  have hsp : isspace (Char.ofNat 45) = false := by decide
  have h45 : (Char.ofNat 45).toNat = 45 := by decide
  unfold strtolValue
  rw [List.dropWhile_cons_of_neg (by simp [hsp])]
  simp only [h45, if_true]
  unfold Nat.toDigits
  rw [hr, readDigits_nil_some]
  rfl

/-- The decimal token of an integer is read back by `strtol` as that integer. -/
theorem strtolValue_toString (n : Int) : strtolValue (toString n).data = some n := by
  cases n with
  | ofNat m => exact strtolValue_digits m
  | negSucc m =>
    have := strtolValue_neg_digits (m + 1)
    exact this

/-- For an integer that fits an `int`, `atoi` of its decimal token is that integer. -/
theorem atoi_toString_int (n : Int) (h1 : INT_MIN ≤ n) (h2 : n ≤ INT_MAX) :
    atoi (toString n) = n := by
  unfold atoi
  rw [strtolValue_toString]
  simp only [INT_MIN, INT_MAX, LONG_MIN, LONG_MAX] at *
  have ha : ¬ n < -9223372036854775808 := by omega
  have hb : ¬ 9223372036854775807 < n := by omega
  simp only [ha, hb, if_false]
  omega

theorem atoi_noLeadingInt (tok : String) (h : noLeadingInt tok = true) : atoi tok = 0 := by
  unfold noLeadingInt at h
  unfold atoi strtolValue
  cases hd : tok.data.dropWhile isspace with
  | nil => rfl
  | cons c cs =>
    rw [hd] at h
    simp only at h ⊢
    by_cases hsign : c.toNat = 45 ∨ c.toNat = 43
    · rw [if_pos hsign] at h
      have hcs : readDigits cs none = none := by
        cases cs with
        | nil => rfl
        | cons d ds =>
          simp only [Bool.not_eq_true'] at h
          simp [readDigits, h]
      rcases hsign with h45 | h43
      · simp [h45, hcs]
      · by_cases h45 : c.toNat = 45
        · simp [h45, hcs]
        · simp [h45, h43, hcs]
    · rw [if_neg hsign] at h
      simp only [Bool.not_eq_true'] at h
      have h45 : ¬ c.toNat = 45 := fun e => hsign (Or.inl e)
      have h43 : ¬ c.toNat = 43 := fun e => hsign (Or.inr e)
      simp [h45, h43, readDigits, h]

/-- C14: `ParseColor` never rejects a token: whenever `led - 1` is an index of the
colour array it stores, for every three tokens, the colour whose channel r, g, b is
the `atoi` value of token 0, 1, 2 narrowed to a byte, each channel from its own token
only.  That byte is n for the decimal token of n in 0..255, is 0 for a token with no
leading decimal integer, and is n mod 256 for the decimal token of any integer n that
fits an `int` (256 gives 0, -1 gives 255). -/
theorem C14_ParseColor_channels :
    (∀ (t0 t1 t2 : String) (more : List String) (report : Report),
        1 ≤ report.led ∧ report.led ≤ 8 →
        ParseColor (t0 :: t1 :: t2 :: more) report
          = some { report with
                   colors := report.colors.set (report.led - 1)
                     ⟨toUint8 (atoi t0), toUint8 (atoi t1), toUint8 (atoi t2)⟩ })
      ∧ (∀ n : Nat, n < 256 → toUint8 (atoi (toString n)) = n)
      ∧ (∀ tok : String, noLeadingInt tok = true → toUint8 (atoi tok) = 0)
      ∧ (∀ n : Int, INT_MIN ≤ n → n ≤ INT_MAX →
          (toUint8 (atoi (toString n)) : Int) = n % 256 ∧ toUint8 (atoi (toString n)) < 256)
      ∧ toUint8 (atoi "256") = 0 ∧ toUint8 (atoi "-1") = 255 := by
  refine ⟨?_, atoi_toString, ?_, ?_, by decide, by decide⟩
  · intro t0 t1 t2 more report h
    rw [ParseColor_eq _ _ h]
    rfl
  · intro tok h
    rw [atoi_noLeadingInt tok h]
    rfl
  · intro n h1 h2
    rw [atoi_toString_int n h1 h2]
    unfold toUint8
    have hnn : 0 ≤ n % 256 := Int.emod_nonneg n (by decide)
    have hlt : n % 256 < 256 := Int.emod_lt_of_pos n (by decide)
    constructor
    · exact Int.toNat_of_nonneg hnn
    · omega

/-- C14 at the tokens `300`, `x`, `-1`, stored for zone 1, and at the integer -257. -/
theorem C14_ParseColor_channels_witness :
    ParseColor ("300" :: "x" :: "-1" :: []) { Report.zero with led := 1 }
        = some { ({ Report.zero with led := 1 } : Report) with
                 colors := ({ Report.zero with led := 1 } : Report).colors.set (1 - 1)
                   ⟨toUint8 (atoi "300"), toUint8 (atoi "x"), toUint8 (atoi "-1")⟩ }
      ∧ toUint8 (atoi "x") = 0
      ∧ (toUint8 (atoi (toString (-257 : Int))) : Int) = (-257) % 256 :=
  ⟨C14_ParseColor_channels.1 "300" "x" "-1" [] { Report.zero with led := 1 }
      ⟨by decide, by decide⟩,
   C14_ParseColor_channels.2.2.1 "x" (by decide),
   (C14_ParseColor_channels.2.2.2.1 (-257) (by decide) (by decide)).1⟩

/-! ## Round trip (C11) -/

/-- The encoding of an animated command with a predefined theme. -/
theorem encode_preset (a0 zone power mode speed theme : String) (trailing : List String)
    (led pw sp : Nat)
    (hz : ParseLed zone 0 = (true, led)) (hp : ParsePower power 0 = (true, pw))
    (hm : mode = "breathing" ∨ mode = "cycle" ∨ mode = "blinking")
    (hs : ParseSpeed speed 0 = (true, sp))
    (ht : theme = "galaxy" ∨ theme = "volcano" ∨ theme = "jungo" ∨ theme = "ocean") :
    encode (a0 :: zone :: power :: mode :: speed :: theme :: trailing)
      = some [presetReport (ParseMode mode 0).2 led pw sp (ParseTheme theme 0).2] := by
  obtain ⟨hm1, hm2, hm3⟩ := ParseMode_animated mode hm
  have ht1 : (ParseTheme theme 0).1 = true ∧ (ParseTheme theme 0).2 ≠ Theme.CUSTOM := by
    rcases ht with rfl | rfl | rfl | rfl <;> decide
  unfold encode
  simp only [arg, List.length_cons, List.getD_cons_succ, List.getD_cons_zero,
    List.drop_succ_cons, List.drop_zero, hz, hp, hs, hm1, hm2, hm3, ht1.1, ht1.2]
  simp [presetReport]

theorem tripleAt_tokens (cs : List Color) (hb : ∀ col, col ∈ cs → col.isBytes) :
    ∀ (i : Nat) (c : Color), cs[i]? = some c →
      tripleAt ((cs.map Color.tokens).flatten) i = c := by
  induction cs with
  | nil => intro i c h; simp at h
  | cons d cs ih =>
    intro i c h
    cases i with
    | zero =>
      simp only [List.getElem?_cons_zero, Option.some.injEq] at h
      subst h
      obtain ⟨h1, h2, h3⟩ := hb d (List.mem_cons_self _ _)
      simp [tripleAt, arg, Color.tokens, atoi_toString _ h1, atoi_toString _ h2,
        atoi_toString _ h3]
    | succ i =>
      simp only [List.getElem?_cons_succ] at h
      have := ih (fun col hcol => hb col (List.mem_cons_of_mem _ hcol)) i c h
      rw [← this]
      have h3 : 3 * (i + 1) = 3 * i + 3 := by omega
      simp [tripleAt, arg, Color.tokens, h3]

theorem slotColor_burstReport (cols : List String) (p : Report) (i : Nat)
    (hlen : p.led - 1 < p.colors.length) :
    slotColor (burstReport cols p i) = tripleAt cols i := by
  simp [slotColor, burstReport, List.getD_eq_getElem?_getD, List.getElem?_set, hlen]

theorem map_range_get (cs : List Color) (f : Nat → Color)
    (hf : ∀ (i : Nat) (c : Color), cs[i]? = some c → f i = c) :
    (List.range' 0 cs.length).map f = cs := by
  apply List.ext_getElem?
  intro i
  by_cases hi : i < cs.length
  · have hc : cs[i]? = some cs[i] := List.getElem?_eq_getElem hi
    rw [List.getElem?_map, List.getElem?_eq_getElem (by simpa using hi), hc]
    simp only [List.getElem_range', Nat.zero_add, Nat.one_mul, Option.map_some']
    rw [hf i _ hc]
  · rw [List.getElem?_eq_none (by simpa using hi), List.getElem?_eq_none (by simpa using hi)]

theorem ParsePower_token (p : PowerContext) :
    ∃ pw, ParsePower p.token 0 = (true, pw) ∧ decodePower pw = some p := by
  cases p
  · exact ⟨Power.ON, by decide, by decide⟩
  · exact ⟨Power.SUSPEND, by decide, by decide⟩

theorem ParseMode_token (m : AnimatedMode) :
    (m.token = "breathing" ∨ m.token = "cycle" ∨ m.token = "blinking")
      ∧ decodeAnimated (ParseMode m.token 0).2 = some m
      ∧ (ParseMode m.token 0).2 ≠ Mode.OFF ∧ (ParseMode m.token 0).2 ≠ Mode.STATIC := by
  cases m <;> decide

theorem ParseSpeed_token (s : SpeedChoice) :
    ∃ sp, ParseSpeed s.token 0 = (true, sp) ∧ decodeSpeed sp = some s := by
  cases s
  · exact ⟨Speed.SLOW, by decide, by decide⟩
  · exact ⟨Speed.MEDIUM, by decide, by decide⟩
  · exact ⟨Speed.FAST, by decide, by decide⟩

theorem ParseTheme_token (t : PresetTheme) :
    (t.token = "galaxy" ∨ t.token = "volcano" ∨ t.token = "jungo" ∨ t.token = "ocean")
      ∧ (ParseTheme t.token 0).2 ≠ Theme.CUSTOM
      ∧ decodePreset (ParseTheme t.token 0).2 = some t := by
  cases t <;> decide

theorem decode_of_head (rs : List Report) (r : Report) (pw : PowerContext) (pl : Payload)
    (hh : rs.head? = some r) (hp : decodePower r.power = some pw)
    (hl : decodePayload r rs = some pl) :
    decode rs = some ⟨r.led, pw, pl⟩ := by
  cases rs with
  | nil => simp at hh
  | cons a tl =>
    simp only [List.head?_cons, Option.some.injEq] at hh
    subst hh
    simp [decode, hp, hl]

/-- The encoding of a valid command decodes to the command. -/
theorem decode_encode (c : Command) (hv : c.valid) (a0 zoneToken : String)
    (hz : ParseLed zoneToken 0 = (true, c.zone)) :
    ∃ rs, encode (c.argv a0 zoneToken) = some rs ∧ decode rs = some c := by
  obtain ⟨zone, power, payload⟩ := c
  obtain ⟨hz1, hz8, hpl⟩ := hv
  simp only at hz hz1 hz8 hpl
  obtain ⟨pw, hp, hdp⟩ := ParsePower_token power
  cases payload with
  | off =>
    refine ⟨_, encode_off a0 zoneToken power.token [] zone pw hz hp, ?_⟩
    simp [decode, decodePayload, offReport, hdp]
  | «static» col =>
    obtain ⟨h1, h2, h3⟩ := hpl
    refine ⟨_, encode_static a0 zoneToken power.token _ _ _ zone pw hz hp, ?_⟩
    have hslot : ((List.replicate 8 (⟨0, 0, 0⟩ : Color)).set (zone - 1) col).getD (zone - 1)
        ⟨0, 0, 0⟩ = col := by
      rw [List.getD_eq_getElem?_getD, replicate_set_self 8 (zone - 1) _ _ (by omega)]
      rfl
    simp only [decode, decodePayload, hdp, atoi_toString _ h1, atoi_toString _ h2,
      atoi_toString _ h3, slotColor, hslot]
    simp [Mode.OFF, Mode.STATIC]
  | preset m s t =>
    obtain ⟨hm, hdm, hm5, hm1⟩ := ParseMode_token m
    obtain ⟨sp, hs, hds⟩ := ParseSpeed_token s
    obtain ⟨ht, htc, hdt⟩ := ParseTheme_token t
    refine ⟨_, encode_preset a0 zoneToken power.token m.token s.token t.token [] zone pw sp
      hz hp hm hs ht, ?_⟩
    simp [decode, decodePayload, presetReport, hdp, hdm, hds, hdt, hm5, hm1, htc]
  | custom m s cs =>
    obtain ⟨hk1, hk4, hbytes⟩ := hpl
    obtain ⟨hm, hdm, hm5, hm1⟩ := ParseMode_token m
    obtain ⟨sp, hs, hds⟩ := ParseSpeed_token s
    have hlen : ((cs.map Color.tokens).flatten).length = 3 * cs.length := by
      clear hk1 hk4 hbytes
      induction cs with
      | nil => rfl
      | cons d cs ih =>
        simp only [List.map_cons, List.flatten_cons, List.length_append, ih, List.length_cons,
          Color.tokens, List.length_nil]
        omega
    refine ⟨_, encode_custom a0 zoneToken power.token m.token s.token
      ((cs.map Color.tokens).flatten) zone pw sp cs.length hz hp hm hs ⟨hk1, hk4⟩ hlen, ?_⟩
    have hcols : ((List.range' 0 cs.length).map (burstReport ((cs.map Color.tokens).flatten)
        (customBase (ParseMode m.token 0).2 zone pw sp cs.length))).map slotColor = cs := by
      rw [List.map_map]
      apply map_range_get
      intro i col hcol
      simp only [Function.comp_apply]
      rw [slotColor_burstReport _ _ _ (by simp [customBase, Report.zero, N_LEDS]; omega)]
      exact tripleAt_tokens cs hbytes i col hcol
    have hhead : ((List.range' 0 cs.length).map (burstReport ((cs.map Color.tokens).flatten)
        (customBase (ParseMode m.token 0).2 zone pw sp cs.length))).head?
        = some (burstReport ((cs.map Color.tokens).flatten)
            (customBase (ParseMode m.token 0).2 zone pw sp cs.length) 0) := by
      obtain ⟨k, hk⟩ : ∃ k, cs.length = k + 1 := ⟨cs.length - 1, by omega⟩
      rw [hk]
      simp [List.range'_succ]
    apply decode_of_head _ _ _ _ hhead
    · exact hdp
    · unfold decodePayload
      rw [hcols]
      have hmode : (burstReport ((cs.map Color.tokens).flatten)
          (customBase (ParseMode m.token 0).2 zone pw sp cs.length) 0).mode
          = (ParseMode m.token 0).2 := rfl
      have hspeed : (burstReport ((cs.map Color.tokens).flatten)
          (customBase (ParseMode m.token 0).2 zone pw sp cs.length) 0).speed = sp := rfl
      have htheme : (burstReport ((cs.map Color.tokens).flatten)
          (customBase (ParseMode m.token 0).2 zone pw sp cs.length) 0).theme
          = Theme.CUSTOM := rfl
      rw [hmode, hspeed, htheme, if_neg hm5, if_neg hm1, hdm, hds]
      simp

/-- C11: there is a decoder on reports, `decode`, such that for every valid command
(zone index 1..8, power, mode, for animated modes speed and theme, colour triples of
bytes), spelled with any zone token that parses to its zone index, the reports of the
command decode to exactly that command.  These reports are what `Run` hands to
`SendReport`, in order: for every transport `Run` returns having sent a non-empty
initial segment of them, all of them when it returns `true`, and it returns `true`
when every send succeeds.  Hence two valid commands for which `Run` returns `true`
with the same report sequence are the same command. -/
theorem C11_round_trip :
    (∀ (c : Command) (a0 zoneToken : String), c.valid →
        ParseLed zoneToken 0 = (true, c.zone) →
        ∃ rs, decode rs = some c
          ∧ ∀ env : Nat → HidOutcome, ∃ b dev m,
              Run env (c.argv a0 zoneToken) = some (b, dev)
                ∧ 1 ≤ m ∧ dev.sent = rs.take m
                ∧ (b = true → dev.sent = rs)
                ∧ ((∀ n, sendOk (env n) = true) → b = true))
      ∧ (∀ (c1 c2 : Command) (a1 z1 a2 z2 : String) (env1 env2 : Nat → HidOutcome)
          (dev1 dev2 : Dev), c1.valid → c2.valid →
          ParseLed z1 0 = (true, c1.zone) → ParseLed z2 0 = (true, c2.zone) →
          Run env1 (c1.argv a1 z1) = some (true, dev1) →
          Run env2 (c2.argv a2 z2) = some (true, dev2) →
          dev1.sent = dev2.sent → c1 = c2) := by
  have part1 : ∀ (c : Command) (a0 zoneToken : String), c.valid →
      ParseLed zoneToken 0 = (true, c.zone) →
      ∃ rs, decode rs = some c
        ∧ ∀ env : Nat → HidOutcome, ∃ b dev m,
            Run env (c.argv a0 zoneToken) = some (b, dev)
              ∧ 1 ≤ m ∧ dev.sent = rs.take m
              ∧ (b = true → dev.sent = rs)
              ∧ ((∀ n, sendOk (env n) = true) → b = true) := by
    intro c a0 zoneToken hv hz
    obtain ⟨rs, henc, hdec⟩ := decode_encode c hv a0 zoneToken hz
    refine ⟨rs, hdec, ?_⟩
    intro env
    obtain ⟨b, dev, m, hrun, hm1, _, hsent, hall⟩ := Run_sent_take env _ rs henc
    refine ⟨b, dev, m, hrun, hm1, hsent, ?_, ?_⟩
    · intro hb
      rw [hsent, hall hb, List.take_length]
    · intro henv
      obtain ⟨dev2, hrun2, _⟩ := Run_good env henv _ rs henc
      rw [hrun] at hrun2
      simp only [Option.some.injEq, Prod.mk.injEq] at hrun2
      exact hrun2.1
  refine ⟨part1, ?_⟩
  intro c1 c2 a1 z1 a2 z2 env1 env2 dev1 dev2 hv1 hv2 hz1 hz2 hr1 hr2 heq
  obtain ⟨rs1, hd1, h1⟩ := part1 c1 a1 z1 hv1 hz1
  obtain ⟨rs2, hd2, h2⟩ := part1 c2 a2 z2 hv2 hz2
  obtain ⟨b1, d1, _, hrun1, _, _, hs1, _⟩ := h1 env1
  obtain ⟨b2, d2, _, hrun2, _, _, hs2, _⟩ := h2 env2
  rw [hr1] at hrun1
  rw [hr2] at hrun2
  simp only [Option.some.injEq, Prod.mk.injEq] at hrun1 hrun2
  obtain ⟨rfl, rfl⟩ := hrun1
  obtain ⟨rfl, rfl⟩ := hrun2
  have e1 := hs1 rfl
  have e2 := hs2 rfl
  rw [← e1] at hd1
  rw [← e2, ← heq, hd1] at hd2
  simpa using hd2

/-- C11 at the command chase, on, blinking, medium, custom (255,0,0) (0,0,255). -/
theorem C11_round_trip_witness :
    ∃ rs, decode rs
        = some ⟨2, .on, .custom .blinking .medium [⟨255, 0, 0⟩, ⟨0, 0, 255⟩]⟩
      ∧ ∀ env : Nat → HidOutcome, ∃ b dev m,
          Run env (Command.argv ⟨2, .on, .custom .blinking .medium [⟨255, 0, 0⟩, ⟨0, 0, 255⟩]⟩
                    "omen_light" "chase") = some (b, dev)
            ∧ 1 ≤ m ∧ dev.sent = rs.take m
            ∧ (b = true → dev.sent = rs)
            ∧ ((∀ n, sendOk (env n) = true) → b = true) :=
  C11_round_trip.1 ⟨2, .on, .custom .blinking .medium [⟨255, 0, 0⟩, ⟨0, 0, 255⟩]⟩
    "omen_light" "chase"
    ⟨by decide, by decide, by decide, by decide, by
      intro col hcol
      simp only [List.mem_cons, List.mem_singleton, List.mem_nil_iff, or_false] at hcol
      rcases hcol with rfl | rfl <;> exact ⟨by decide, by decide, by decide⟩⟩
    (by decide)

end OmenLight
